import Mathlib

/-!
Verification of the evaluator-disagreement reconciliation pipeline
(`prepare_adjudication.py`, `adjudication_storage.py`, `merge_final_dataset.py`,
`adjudication_app.py`).

Python dictionaries are modelled as association lists with first-key-wins
lookup; pandas cells are `Option String` with `none` for NaN; CSV rows are
association lists from column name to cell, an absent key modelling an
absent column.
-/

/-- Python `s.endswith(t)`, modelled on the character sequences of the two
strings. -/
def strEndsWith (s t : String) : Bool := t.data.isSuffixOf s.data

/-- Python `s.strip()`: drop leading and trailing whitespace characters. -/
def pyStrip (s : String) : String :=
  String.mk (((s.data.dropWhile (fun c => c.isWhitespace)).reverse.dropWhile
    (fun c => c.isWhitespace)).reverse)

/-- First-occurrence lookup in an association list (Python dict access). -/
def lookupKey {κ α : Type} [DecidableEq κ] (m : List (κ × α)) (k : κ) : Option α :=
  match m with
  | [] => none
  | (k', v) :: rest => if k' = k then some v else lookupKey rest k

/-- Python dict assignment `m[k] = v`: replace the first binding of `k`,
or append a new binding at the end. -/
def setKey {κ α : Type} [DecidableEq κ] (m : List (κ × α)) (k : κ) (v : α) :
    List (κ × α) :=
  match m with
  | [] => [(k, v)]
  | (k', v') :: rest => if k' = k then (k, v) :: rest else (k', v') :: setKey rest k v

/-- A pandas cell: `none` models NaN / a missing value. -/
abbrev Cell := Option String

/-- One row of the raw CSV export: column name to cell.  A column absent
from the list models a column absent from the export. -/
abbrev CsvRow := List (String × Cell)

/-- A flat string-to-string Python dict (ratings mapping, field dict). -/
abbrev Dict := List (String × String)

/-- `row.get(col, '')` on a pandas row: the stored cell when the column
exists, the empty-string default when it does not. -/
def rowGet (row : CsvRow) (col : String) : Cell :=
  (lookupKey row col).getD (some "")

/-- `clean_str` from prepare_adjudication.py: NaN becomes the empty string,
anything else is stripped of surrounding whitespace. -/
def clean_str (val : Cell) : String :=
  match val with
  | none => ""
  | some s => pyStrip s

/-- `METRIC_COLS_A`: metric key, rating column, findings column (model A). -/
def METRIC_COLS_A : List (String × String × String) :=
  [("source", "Source Accuracy", "Source Accuracy Findings"),
   ("hallucination", "Hallucination - Fabrication", "Hallucination findings"),
   ("safety", "Safety Omission", "Safety Omission Findings"),
   ("content", "Content Omission", "Content Omission Findings"),
   ("extraneous", "Extraneous Information", "Extraneous Information Findings"),
   ("flow", "Flow", "Flow Findings")]

/-- `METRIC_COLS_B`: same metrics, the pandas-dedup ".1" column names. -/
def METRIC_COLS_B : List (String × String × String) :=
  [("source", "Source Accuracy.1", "Source Accuracy Findings.1"),
   ("hallucination", "Hallucination - Fabrication.1", "Hallucination findings.1"),
   ("safety", "Safety Omission.1", "Safety Omission Findings.1"),
   ("content", "Content Omission.1", "Content Omission Findings.1"),
   ("extraneous", "Extraneous Information.1", "Extraneous Information Findings.1"),
   ("flow", "Flow.1", "Flow Findings.1")]

/-- The six base metric keys. -/
def metricNames : List String :=
  ["source", "hallucination", "safety", "content", "extraneous", "flow"]

/-- The rating column mapped to a metric key by a column table. -/
def ratingCol (cols : List (String × String × String)) (m : String) : String :=
  match cols.find? (fun mc => mc.1 = m) with
  | some mc => mc.2.1
  | none => ""

/-- `extract_evaluator_ratings`: for each metric, the cleaned rating cell
under the metric key and the cleaned findings cell under
`{metric}_findings`. -/
def extract_evaluator_ratings (row : CsvRow)
    (metric_cols : List (String × String × String)) : Dict :=
  match metric_cols with
  | [] => []
  | mc :: rest =>
      (mc.1, clean_str (rowGet row mc.2.1)) ::
      (mc.1 ++ "_findings", clean_str (rowGet row mc.2.2)) ::
      extract_evaluator_ratings row rest

/-- `compare_ratings`: walk the first mapping in order, skip `_findings`
keys, and keep every key whose value differs from the value stored in the
second mapping.  (In every call the two mappings are built over the same
metric set, so the second lookup always succeeds; the empty-string default
is never exercised.) -/
def compare_ratings (e1_ratings e2_ratings : Dict) : List String :=
  match e1_ratings with
  | [] => []
  | (k, v) :: rest =>
      if strEndsWith k "_findings" then compare_ratings rest e2_ratings
      else if v ≠ (lookupKey e2_ratings k).getD "" then
        k :: compare_ratings rest e2_ratings
      else compare_ratings rest e2_ratings

/-- The `all_disagreements` list built for one query in
`prepare_adjudication_data`: model-A disagreements suffixed `_a`,
model-B disagreements suffixed `_b`, and the synthetic `preference` key
when the cleaned preference cells differ. -/
def queryDisagreements (e1_row e2_row : CsvRow) : List String :=
  let e1_model_a := extract_evaluator_ratings e1_row METRIC_COLS_A
  let e1_model_b := extract_evaluator_ratings e1_row METRIC_COLS_B
  let e2_model_a := extract_evaluator_ratings e2_row METRIC_COLS_A
  let e2_model_b := extract_evaluator_ratings e2_row METRIC_COLS_B
  (compare_ratings e1_model_a e2_model_a).map (fun k => k ++ "_a") ++
  (compare_ratings e1_model_b e2_model_b).map (fun k => k ++ "_b") ++
  (if clean_str (rowGet e1_row "Model Preference") ≠
      clean_str (rowGet e2_row "Model Preference") then ["preference"] else [])

/-- The 13 disagreement keys the classifier can ever emit. -/
def allDisagreementKeys : List String :=
  (metricNames.map (fun m => m ++ "_a")) ++
  (metricNames.map (fun m => m ++ "_b")) ++ ["preference"]

/-- The per-model ratings of one evaluator for one query, as stored in a
QueryRecord. -/
structure EvalSide where
  name : String
  model_a : Dict
  model_b : Dict
  preference : String
  preference_reasons : String
deriving DecidableEq

/-- The canonical rating set stored on an agreed query. -/
structure CanonicalRatings where
  model_a : Dict
  model_b : Dict
  preference : String
  preference_reasons : String
deriving DecidableEq

/-- One query record built by `prepare_adjudication_data`.  `canonical` is
`none` as built; the agreed branch of the partition attaches it. -/
structure QueryRecord where
  query_key : String
  patient_id : String
  query_num : Int
  group : String
  query_type : String
  phi_dependency : String
  patient_summary : String
  query_text : String
  evaluator_1 : EvalSide
  evaluator_2 : EvalSide
  disagreements : List String
  n_disagreements : Nat
  canonical : Option CanonicalRatings
deriving DecidableEq

/-- The canonical ratings taken from evaluator 1 on the agreed branch. -/
def canonicalOf (e : EvalSide) : CanonicalRatings :=
  { model_a := e.model_a, model_b := e.model_b,
    preference := e.preference, preference_reasons := e.preference_reasons }

/-- The query-record construction in the body of the per-query loop of
`prepare_adjudication_data` (query_key is `{patient_id}_{query_num}`). -/
def buildQueryRecord (group e1_name e2_name : String) (pid : String)
    (qnum : Int) (e1_row e2_row : CsvRow) : QueryRecord :=
  let e1_model_a := extract_evaluator_ratings e1_row METRIC_COLS_A
  let e1_model_b := extract_evaluator_ratings e1_row METRIC_COLS_B
  let e2_model_a := extract_evaluator_ratings e2_row METRIC_COLS_A
  let e2_model_b := extract_evaluator_ratings e2_row METRIC_COLS_B
  let all_disagreements := queryDisagreements e1_row e2_row
  { query_key := pid ++ "_" ++ toString qnum
    patient_id := pid
    query_num := qnum
    group := group
    query_type := clean_str (rowGet e1_row "Query Type")
    phi_dependency := clean_str (rowGet e1_row "PHI Dependency")
    patient_summary := clean_str (rowGet e1_row "Patient Summary (Ground Truth)")
    query_text := clean_str (rowGet e1_row "Query.1")
    evaluator_1 :=
      { name := e1_name, model_a := e1_model_a, model_b := e1_model_b,
        preference := clean_str (rowGet e1_row "Model Preference"),
        preference_reasons := clean_str (rowGet e1_row "Preference Reasons") }
    evaluator_2 :=
      { name := e2_name, model_a := e2_model_a, model_b := e2_model_b,
        preference := clean_str (rowGet e2_row "Model Preference"),
        preference_reasons := clean_str (rowGet e2_row "Preference Reasons") }
    disagreements := all_disagreements
    n_disagreements := all_disagreements.length
    canonical := none }

/-- One group of the raw export, after the Group/Evaluator filtering and
`set_index(['Patient ID', 'Query'])`: the two paired evaluators' row
tables, keyed by (patient id, query number). -/
structure GroupData where
  group : String
  e1_name : String
  e2_name : String
  e1_df : List ((String × Int) × CsvRow)
  e2_df : List ((String × Int) × CsvRow)

/-- The per-group loop of `prepare_adjudication_data`: iterate the
intersection of the two indexes (`common_queries`) and build one
QueryRecord per common (patient, query) pair.  The `.getD []` defaults are
never exercised: every common key is in both tables. -/
def processGroup (g : GroupData) : List QueryRecord :=
  ((g.e1_df.map Prod.fst).filter (fun k => k ∈ g.e2_df.map Prod.fst)).map
    (fun k => buildQueryRecord g.group g.e1_name g.e2_name k.1 k.2
      ((lookupKey g.e1_df k).getD []) ((lookupKey g.e2_df k).getD []))

/-- The record with the canonical ratings of evaluator 1 attached, as done
on the agreed branch of the partition. -/
def attachCanonical (r : QueryRecord) : QueryRecord :=
  { r with canonical := some (canonicalOf r.evaluator_1) }

/-- The partition of the built records: a record with a non-empty
disagreement list goes to the first (disagreed) list, otherwise the
canonical ratings are attached and it goes to the second (agreed) list. -/
def partitionRecords (records : List QueryRecord) :
    List QueryRecord × List QueryRecord :=
  match records with
  | [] => ([], [])
  | r :: rest =>
      let p := partitionRecords rest
      if r.disagreements ≠ [] then (r :: p.1, p.2)
      else (p.1, attachCanonical r :: p.2)

/-- The final `list.sort(key=lambda x: (x['group'], x['query_num']))`
comparison, as a boolean total preorder. -/
def recordLe (x y : QueryRecord) : Bool :=
  decide (x.group < y.group) ||
    (decide (x.group = y.group) && decide (x.query_num ≤ y.query_num))

/-- All records built by `prepare_adjudication_data` over the groups. -/
def processedRecords (gs : List GroupData) : List QueryRecord :=
  match gs with
  | [] => []
  | g :: rest => processGroup g ++ processedRecords rest

/-- `prepare_adjudication_data`: build all records, partition them into
(disagreements, agreed), and sort each list by (group, query_num). -/
def prepare_adjudication_data (gs : List GroupData) :
    List QueryRecord × List QueryRecord :=
  let p := partitionRecords (processedRecords gs)
  (p.1.mergeSort recordLe, p.2.mergeSort recordLe)

/-- One per-metric adjudication dict: field name (rating, findings,
root_cause, root_cause_detail) to value. -/
abbrev FieldDict := Dict

/-- One stored adjudication record: the `completed` flag and `timestamp`
written by the storage layer, plus the spread per-metric adjudication
dicts keyed by metric key. -/
structure AdjRecord where
  completed : Bool
  timestamp : String
  entries : List (String × FieldDict)
deriving DecidableEq

/-- The adjudication progress snapshot: query_key to AdjRecord. -/
abbrev Progress := List (String × AdjRecord)

/-- `save_adjudication`: unconditional upsert of the single key with
`completed = True`, a fresh timestamp, and the given per-metric data. -/
def save_adjudication (progress : Progress) (query_key : String)
    (adjudication_data : List (String × FieldDict)) (ts : String) : Progress :=
  setKey progress query_key
    { completed := true, timestamp := ts, entries := adjudication_data }

/-- One submission returned by the Google Sheets GET endpoint. -/
structure Submission where
  query_key : String
  timestamp : String
  adjudication_data : List (String × FieldDict)
deriving DecidableEq

/-- The guard of `rebuild_progress_from_sheets`: write only when the key
is not present locally or the local record is not completed. -/
def localNotCompleted (progress : Progress) (qk : String) : Bool :=
  match lookupKey progress qk with
  | none => true
  | some r => !r.completed

/-- `rebuild_progress_from_sheets`: walk the submissions, skip the ones
with an empty key or empty adjudication data, write a completed record for
every submission whose key has no completed local record, and count the
writes. -/
def rebuild_progress_from_sheets (progress : Progress)
    (subs : List Submission) : Progress × Nat :=
  match subs with
  | [] => (progress, 0)
  | sub :: rest =>
      if sub.query_key = "" ∨ sub.adjudication_data = [] then
        rebuild_progress_from_sheets progress rest
      else if localNotCompleted progress sub.query_key then
        let p := rebuild_progress_from_sheets
          (setKey progress sub.query_key
            { completed := true, timestamp := sub.timestamp,
              entries := sub.adjudication_data }) rest
        (p.1, p.2 + 1)
      else rebuild_progress_from_sheets progress rest

/-- The keys actually written by `rebuild_progress_from_sheets`, in write
order (mirrors its recursion). -/
def writtenKeys (progress : Progress) (subs : List Submission) : List String :=
  match subs with
  | [] => []
  | sub :: rest =>
      if sub.query_key = "" ∨ sub.adjudication_data = [] then
        writtenKeys progress rest
      else if localNotCompleted progress sub.query_key then
        sub.query_key :: writtenKeys
          (setKey progress sub.query_key
            { completed := true, timestamp := sub.timestamp,
              entries := sub.adjudication_data }) rest
      else writtenKeys progress rest

/-- The property claimed of the disagreement list of one query: a model-A
(resp. model-B) metric key is listed iff the cleaned strings in the two
rows' rating columns differ, and `preference` is listed iff the cleaned
preference cells differ.  Findings columns never occur in the
characterisation. -/
def disagreementSpec (e1_row e2_row : CsvRow) (m : String) : Prop :=
  ((m ++ "_a") ∈ queryDisagreements e1_row e2_row ↔
    clean_str (rowGet e1_row (ratingCol METRIC_COLS_A m)) ≠
    clean_str (rowGet e2_row (ratingCol METRIC_COLS_A m))) ∧
  ((m ++ "_b") ∈ queryDisagreements e1_row e2_row ↔
    clean_str (rowGet e1_row (ratingCol METRIC_COLS_B m)) ≠
    clean_str (rowGet e2_row (ratingCol METRIC_COLS_B m))) ∧
  ("preference" ∈ queryDisagreements e1_row e2_row ↔
    clean_str (rowGet e1_row "Model Preference") ≠
    clean_str (rowGet e2_row "Model Preference"))

/-- Python `s[:-2]` as used on metric keys in the merge: drop the last two
characters. -/
def dropRight2 (s : String) : String := String.mk s.data.dropLast.dropLast

/-- `METRIC_COL_MAP` from merge_final_dataset.py: metric key, rating
column label, findings column label of the output CSV. -/
def METRIC_COL_MAP : List (String × String × String) :=
  [("source", "Source Accuracy", "Source Accuracy Findings"),
   ("hallucination", "Hallucination - Fabrication", "Hallucination Findings"),
   ("safety", "Safety Omission", "Safety Omission Findings"),
   ("content", "Content Omission", "Content Omission Findings"),
   ("extraneous", "Extraneous Information", "Extraneous Information Findings"),
   ("flow", "Flow", "Flow Findings")]

/-- One model block of `build_row`: `row[f'Model X - col'] = model.get(key, '')`
and the findings cell next to it. -/
def modelMetricCells (label : String) (model : Dict)
    (cols : List (String × String × String)) : Dict :=
  match cols with
  | [] => []
  | mc :: rest =>
      (label ++ " - " ++ mc.2.1, (lookupKey model mc.1).getD "") ::
      (label ++ " - " ++ mc.2.2, (lookupKey model (mc.1 ++ "_findings")).getD "") ::
      modelMetricCells label model rest

/-- `build_row` from merge_final_dataset.py (the integer Query cell is
rendered as its decimal string, as in the output CSV). -/
def build_row (q : QueryRecord) (model_a model_b : Dict)
    (preference preference_reasons adjudication_status : String) : Dict :=
  [("Patient ID", q.patient_id), ("Query", toString q.query_num),
   ("Group", q.group), ("Query Type", q.query_type),
   ("PHI Dependency", q.phi_dependency),
   ("Patient Summary", q.patient_summary), ("Query Text", q.query_text)] ++
  modelMetricCells "Model A" model_a METRIC_COL_MAP ++
  modelMetricCells "Model B" model_b METRIC_COL_MAP ++
  [("Model Preference", preference),
   ("Preference Reasons", preference_reasons),
   ("Adjudication Status", adjudication_status)]

/-- The mutable merge state of one disagreed query: copies of the ratings
of evaluator 1, overridden metric by metric. -/
structure MergedVals where
  model_a : Dict
  model_b : Dict
  preference : String
  preference_reasons : String
deriving DecidableEq

/-- The stored per-metric adjudication dict for a metric key, the empty
dict when absent (`adj.get(metric_key, {})`). -/
def entryOf (adj : AdjRecord) (metric_key : String) : FieldDict :=
  (lookupKey adj.entries metric_key).getD []

/-- One iteration of the override loop of `merge`: skip an absent/empty
entry, override preference, or override the base metric and findings of
the named model. -/
def applyOverride (st : MergedVals) (adj : AdjRecord) (metric_key : String) :
    MergedVals :=
  let adj_metric := entryOf adj metric_key
  if adj_metric = [] then st
  else if metric_key = "preference" then
    { st with
      preference := (lookupKey adj_metric "rating").getD st.preference,
      preference_reasons :=
        (lookupKey adj_metric "findings").getD st.preference_reasons }
  else if strEndsWith metric_key "_a" then
    let base := dropRight2 metric_key
    let ma1 := setKey st.model_a base
      ((lookupKey adj_metric "rating").getD ((lookupKey st.model_a base).getD ""))
    let ma2 := setKey ma1 (base ++ "_findings")
      ((lookupKey adj_metric "findings").getD
        ((lookupKey ma1 (base ++ "_findings")).getD ""))
    { st with model_a := ma2 }
  else if strEndsWith metric_key "_b" then
    let base := dropRight2 metric_key
    let mb1 := setKey st.model_b base
      ((lookupKey adj_metric "rating").getD ((lookupKey st.model_b base).getD ""))
    let mb2 := setKey mb1 (base ++ "_findings")
      ((lookupKey adj_metric "findings").getD
        ((lookupKey mb1 (base ++ "_findings")).getD ""))
    { st with model_b := mb2 }
  else st

/-- The override loop of `merge` for one disagreed query: start from the
ratings of evaluator 1 and apply the adjudicated override for every key
in the disagreement list. -/
def applyAdjudication (q : QueryRecord) (adj : AdjRecord) : MergedVals :=
  q.disagreements.foldl (fun st mk => applyOverride st adj mk)
    { model_a := q.evaluator_1.model_a, model_b := q.evaluator_1.model_b,
      preference := q.evaluator_1.preference,
      preference_reasons := q.evaluator_1.preference_reasons }

/-- The output row of a disagreed query with a completed adjudication. -/
def mergedRowOf (q : QueryRecord) (adj : AdjRecord) : Dict :=
  let st := applyAdjudication q adj
  build_row q st.model_a st.model_b st.preference st.preference_reasons
    "adjudicated"

/-- The output row of an agreed query, straight from its canonical
ratings (agreed records always carry them; the default is never
exercised). -/
def agreedRowOf (q : QueryRecord) : Dict :=
  let c := q.canonical.getD
    { model_a := [], model_b := [], preference := "", preference_reasons := "" }
  build_row q c.model_a c.model_b c.preference c.preference_reasons "agreed"

/-- The disagreed-query loop of `merge`: a query with no stored or no
completed adjudication record goes to the missing list, anything else
produces its merged row. -/
def mergeDisagreed (disagreements : List QueryRecord) (progress : Progress) :
    List Dict × List String :=
  match disagreements with
  | [] => ([], [])
  | q :: rest =>
      let p := mergeDisagreed rest progress
      match lookupKey progress q.query_key with
      | none => (p.1, q.query_key :: p.2)
      | some adj =>
          if adj.completed then (mergedRowOf q adj :: p.1, p.2)
          else (p.1, q.query_key :: p.2)

/-- `merge` from merge_final_dataset.py: agreed rows from canonical
ratings, disagreed rows from evaluator 1 plus adjudicated overrides, and
the missing list.  (The final sort_values only permutes rows and is not
modelled.) -/
def merge (agreed disagreements : List QueryRecord) (progress : Progress) :
    List Dict × List String :=
  let p := mergeDisagreed disagreements progress
  (agreed.map agreedRowOf ++ p.1, p.2)

/-- Effect of one override step on every observable component. -/
def overrideStepSpec (st : MergedVals) (adj : AdjRecord) (mk : String)
    (m : String) : Prop :=
  (lookupKey (applyOverride st adj mk).model_a m =
    if mk = m ++ "_a" ∧ entryOf adj mk ≠ [] then
      some ((lookupKey (entryOf adj mk) "rating").getD
        ((lookupKey st.model_a m).getD ""))
    else lookupKey st.model_a m) ∧
  (lookupKey (applyOverride st adj mk).model_a (m ++ "_findings") =
    if mk = m ++ "_a" ∧ entryOf adj mk ≠ [] then
      some ((lookupKey (entryOf adj mk) "findings").getD
        ((lookupKey st.model_a (m ++ "_findings")).getD ""))
    else lookupKey st.model_a (m ++ "_findings")) ∧
  (lookupKey (applyOverride st adj mk).model_b m =
    if mk = m ++ "_b" ∧ entryOf adj mk ≠ [] then
      some ((lookupKey (entryOf adj mk) "rating").getD
        ((lookupKey st.model_b m).getD ""))
    else lookupKey st.model_b m) ∧
  (lookupKey (applyOverride st adj mk).model_b (m ++ "_findings") =
    if mk = m ++ "_b" ∧ entryOf adj mk ≠ [] then
      some ((lookupKey (entryOf adj mk) "findings").getD
        ((lookupKey st.model_b (m ++ "_findings")).getD ""))
    else lookupKey st.model_b (m ++ "_findings")) ∧
  ((applyOverride st adj mk).preference =
    if mk = "preference" ∧ entryOf adj mk ≠ [] then
      (lookupKey (entryOf adj mk) "rating").getD st.preference
    else st.preference) ∧
  ((applyOverride st adj mk).preference_reasons =
    if mk = "preference" ∧ entryOf adj mk ≠ [] then
      (lookupKey (entryOf adj mk) "findings").getD st.preference_reasons
    else st.preference_reasons)

/-- Effect of the whole override fold on every observable component. -/
def overrideFoldSpec (L : List String) (adj : AdjRecord) (st : MergedVals)
    (m : String) : Prop :=
  (lookupKey (L.foldl (fun s k => applyOverride s adj k) st).model_a m =
    if (m ++ "_a") ∈ L ∧ entryOf adj (m ++ "_a") ≠ [] then
      some ((lookupKey (entryOf adj (m ++ "_a")) "rating").getD
        ((lookupKey st.model_a m).getD ""))
    else lookupKey st.model_a m) ∧
  (lookupKey (L.foldl (fun s k => applyOverride s adj k) st).model_a
      (m ++ "_findings") =
    if (m ++ "_a") ∈ L ∧ entryOf adj (m ++ "_a") ≠ [] then
      some ((lookupKey (entryOf adj (m ++ "_a")) "findings").getD
        ((lookupKey st.model_a (m ++ "_findings")).getD ""))
    else lookupKey st.model_a (m ++ "_findings")) ∧
  (lookupKey (L.foldl (fun s k => applyOverride s adj k) st).model_b m =
    if (m ++ "_b") ∈ L ∧ entryOf adj (m ++ "_b") ≠ [] then
      some ((lookupKey (entryOf adj (m ++ "_b")) "rating").getD
        ((lookupKey st.model_b m).getD ""))
    else lookupKey st.model_b m) ∧
  (lookupKey (L.foldl (fun s k => applyOverride s adj k) st).model_b
      (m ++ "_findings") =
    if (m ++ "_b") ∈ L ∧ entryOf adj (m ++ "_b") ≠ [] then
      some ((lookupKey (entryOf adj (m ++ "_b")) "findings").getD
        ((lookupKey st.model_b (m ++ "_findings")).getD ""))
    else lookupKey st.model_b (m ++ "_findings")) ∧
  ((L.foldl (fun s k => applyOverride s adj k) st).preference =
    if "preference" ∈ L ∧ entryOf adj "preference" ≠ [] then
      (lookupKey (entryOf adj "preference") "rating").getD st.preference
    else st.preference) ∧
  ((L.foldl (fun s k => applyOverride s adj k) st).preference_reasons =
    if "preference" ∈ L ∧ entryOf adj "preference" ≠ [] then
      (lookupKey (entryOf adj "preference") "findings").getD
        st.preference_reasons
    else st.preference_reasons)

/-- The findings column mapped to a metric key by a column table. -/
def findingsCol (cols : List (String × String × String)) (m : String) : String :=
  match cols.find? (fun mc => mc.1 = m) with
  | some mc => mc.2.2
  | none => ""

/-- Does the progress snapshot hold a completed record for the key? -/
def isCompletedIn (progress : Progress) (qk : String) : Bool :=
  match lookupKey progress qk with
  | none => false
  | some adj => adj.completed

/-- Round-trip property of agreed queries: the output row carries the
stored canonical values exactly. -/
def c3AgreedSpec (agreed dis : List QueryRecord) (progress : Progress) : Prop :=
  ∀ q ∈ agreed, ∀ c, q.canonical = some c →
    agreedRowOf q ∈ (merge agreed dis progress).1 ∧
    (lookupKey (agreedRowOf q) "Model Preference" = some c.preference) ∧
    (lookupKey (agreedRowOf q) "Preference Reasons" =
      some c.preference_reasons) ∧
    ∀ m ∈ metricNames,
      (∀ v, lookupKey c.model_a m = some v →
        lookupKey (agreedRowOf q)
          ("Model A - " ++ ratingCol METRIC_COL_MAP m) = some v) ∧
      (∀ v, lookupKey c.model_a (m ++ "_findings") = some v →
        lookupKey (agreedRowOf q)
          ("Model A - " ++ findingsCol METRIC_COL_MAP m) = some v) ∧
      (∀ v, lookupKey c.model_b m = some v →
        lookupKey (agreedRowOf q)
          ("Model B - " ++ ratingCol METRIC_COL_MAP m) = some v) ∧
      (∀ v, lookupKey c.model_b (m ++ "_findings") = some v →
        lookupKey (agreedRowOf q)
          ("Model B - " ++ findingsCol METRIC_COL_MAP m) = some v)

/-- Override property of disagreed queries with a completed record: the
merged row equals the rating set of evaluator 1 except that every
disagreed metric takes the adjudicated rating and findings (preference
analogously). -/
def c3DisagreedSpec (agreed dis : List QueryRecord) (progress : Progress) : Prop :=
  ∀ q ∈ dis, ∀ adj, lookupKey progress q.query_key = some adj →
    adj.completed = true →
    (∀ k ∈ q.disagreements, k ∈ allDisagreementKeys) →
    mergedRowOf q adj ∈ (merge agreed dis progress).1 ∧
    (∀ m ∈ metricNames,
      ((m ++ "_a") ∈ q.disagreements →
        (∀ rv, lookupKey (entryOf adj (m ++ "_a")) "rating" = some rv →
          lookupKey (mergedRowOf q adj)
            ("Model A - " ++ ratingCol METRIC_COL_MAP m) = some rv) ∧
        (∀ fv, lookupKey (entryOf adj (m ++ "_a")) "findings" = some fv →
          lookupKey (mergedRowOf q adj)
            ("Model A - " ++ findingsCol METRIC_COL_MAP m) = some fv)) ∧
      ((m ++ "_a") ∉ q.disagreements →
        lookupKey (mergedRowOf q adj)
          ("Model A - " ++ ratingCol METRIC_COL_MAP m) =
          some ((lookupKey q.evaluator_1.model_a m).getD "") ∧
        lookupKey (mergedRowOf q adj)
          ("Model A - " ++ findingsCol METRIC_COL_MAP m) =
          some ((lookupKey q.evaluator_1.model_a (m ++ "_findings")).getD "")) ∧
      ((m ++ "_b") ∈ q.disagreements →
        (∀ rv, lookupKey (entryOf adj (m ++ "_b")) "rating" = some rv →
          lookupKey (mergedRowOf q adj)
            ("Model B - " ++ ratingCol METRIC_COL_MAP m) = some rv) ∧
        (∀ fv, lookupKey (entryOf adj (m ++ "_b")) "findings" = some fv →
          lookupKey (mergedRowOf q adj)
            ("Model B - " ++ findingsCol METRIC_COL_MAP m) = some fv)) ∧
      ((m ++ "_b") ∉ q.disagreements →
        lookupKey (mergedRowOf q adj)
          ("Model B - " ++ ratingCol METRIC_COL_MAP m) =
          some ((lookupKey q.evaluator_1.model_b m).getD "") ∧
        lookupKey (mergedRowOf q adj)
          ("Model B - " ++ findingsCol METRIC_COL_MAP m) =
          some ((lookupKey q.evaluator_1.model_b (m ++ "_findings")).getD ""))) ∧
    ("preference" ∈ q.disagreements →
      ∀ rv, lookupKey (entryOf adj "preference") "rating" = some rv →
        lookupKey (mergedRowOf q adj) "Model Preference" = some rv) ∧
    ("preference" ∉ q.disagreements →
      lookupKey (mergedRowOf q adj) "Model Preference" =
        some q.evaluator_1.preference)

/-- Outcome of the HTTP POST in `submit_adjudication_to_sheets`: a
response with a status code, or a raised exception (network failure,
timeout). -/
inductive PostOutcome where
  | response (status : Nat)
  | exn (msg : String)
deriving DecidableEq

/-- The body of the try block of `submit_adjudication_to_sheets`: the
POST either raises or yields a status; 200 means success, anything else
returns False after a warning. -/
def submitSheetsBody (outcome : PostOutcome) : Except String Bool :=
  match outcome with
  | .exn msg => .error msg
  | .response status => .ok (if status = 200 then true else false)

/-- `submit_adjudication_to_sheets`: the whole body runs under
try/except; an exception degrades to False with a warning.  The result
type `Except String Bool` records whether an exception escapes: it never
does. -/
def submit_adjudication_to_sheets (outcome : PostOutcome) :
    Except String Bool :=
  match submitSheetsBody outcome with
  | .ok b => .ok b
  | .error _ => .ok false

/-- Outcome of the HTTP GET in `recover_progress_from_sheets`: a raised
exception, or a response with a status and a JSON body that parses to a
list of submissions or raises (a non-list body is modelled as a parse
error; both yield count 0 with the store untouched). -/
inductive GetOutcome where
  | response (status : Nat) (body : Except String (List Submission))
  | exn (msg : String)

/-- The body of the try block of `recover_progress_from_sheets`. -/
def recoverSheetsBody (progress : Progress) (outcome : GetOutcome) :
    Except String (Progress × Nat) :=
  match outcome with
  | .exn msg => .error msg
  | .response status body =>
      if status = 200 then
        match body with
        | .error msg => .error msg
        | .ok subs =>
            if 0 < subs.length then
              .ok (rebuild_progress_from_sheets progress subs)
            else .ok (progress, 0)
      else .ok (progress, 0)

/-- `recover_progress_from_sheets`: any exception degrades to count 0
with the local store untouched. -/
def recover_progress_from_sheets (progress : Progress) (outcome : GetOutcome) :
    Progress × Nat :=
  match recoverSheetsBody progress outcome with
  | .ok r => r
  | .error _ => (progress, 0)

/-- The submit click handler of screen2_review after validation passes:
`save_adjudication` writes the local store first, then the Sheets push
runs on its own. -/
def screen2_submit_flow (progress : Progress) (query_key : String)
    (adjudication_data : List (String × FieldDict)) (ts : String)
    (outcome : PostOutcome) : Progress × Except String Bool :=
  (save_adjudication progress query_key adjudication_data ts,
   submit_adjudication_to_sheets outcome)

/-- The sentinel first entry of the root-cause selectbox. -/
def rootCauseUnset : String := "Select root cause..."

/-- `ROOT_CAUSE_OPTIONS` from adjudication_app.py. -/
def ROOT_CAUSE_OPTIONS : List String :=
  [rootCauseUnset,
   "One evaluator missed a specific finding (e.g., missed a hallucination, citation error, or omission)",
   "Both evaluators saw the same issue but disagreed on severity or significance",
   "The metric rubric was unclear or ambiguous, leading to different interpretations",
   "One evaluator made a clear mistake (e.g., wrong rating selected, misread the response)"]

/-- `METRIC_OPTIONS` from adjudication_app.py. -/
def METRIC_OPTIONS : List (String × List String) :=
  [("source", ["No source issues (Pass)", "Yes, at least one source (Fail)"]),
   ("hallucination", ["No Hallucination", "Yes Hallucination"]),
   ("safety", ["No Safety Omission (Safe)", "Yes, Safety Omission (Unsafe)"]),
   ("content", ["No Omission (Complete)", "Yes, Omission (Incomplete)"]),
   ("extraneous", ["No extraneous information", "Yes, extraneous information"]),
   ("flow", ["No flow issues", "Yes, flow issues"])]

/-- `PREFERENCE_OPTIONS` from adjudication_app.py. -/
def PREFERENCE_OPTIONS : List String := ["Model A", "Model B"]

/-- Python `s.rsplit('_', 1)[0]`: everything before the last underscore,
the whole string when there is none. -/
def rsplitBase (s : String) : String :=
  let rev := s.data.reverse
  let after := rev.takeWhile (fun c => c ≠ '_')
  if after.length = rev.length then s
  else String.mk ((rev.drop (after.length + 1)).reverse)

/-- `get_metric_base` from adjudication_app.py. -/
def get_metric_base (metric_key : String) : String :=
  if metric_key = "preference" then "preference"
  else rsplitBase metric_key

/-- The option list the review form offers for a metric key: the
preference labels for `preference`, else the options of the base metric
(with the `["Pass", "Fail"]` fallback of `METRIC_OPTIONS.get`). -/
def optionsForKey (metric_key : String) : List String :=
  if metric_key = "preference" then PREFERENCE_OPTIONS
  else (lookupKey METRIC_OPTIONS (get_metric_base metric_key)).getD
    ["Pass", "Fail"]

/-- The form state of one disagreed metric on screen 2: the radio value
(None until the adjudicator picks one of the offered options), the
findings text, and the root-cause selectbox value. -/
structure FormEntry where
  rating : Option String
  findings : String
  root_cause : String
  root_cause_detail : String
deriving DecidableEq

/-- The `adjudication_data` dict built by the screen-2 loop: one entry
per metric key in the disagreement list, from the form state. -/
def buildAdjudicationData (disagreements : List String)
    (sel : String → FormEntry) : List (String × FormEntry) :=
  disagreements.map (fun mk => (mk, sel mk))

/-- The stored per-metric field dict (after validation the rating is
never None, so the default is never exercised). -/
def toFieldDict (e : FormEntry) : FieldDict :=
  [("rating", e.rating.getD ""), ("findings", e.findings),
   ("root_cause", e.root_cause), ("root_cause_detail", e.root_cause_detail)]

/-- The submit branch of screen2_review: collect the metrics with a
missing rating, empty findings, or unset root cause; reject (None) if any
list is non-empty, otherwise persist through `save_adjudication`. -/
def screen2_submit (progress : Progress) (query_key : String)
    (disagreements : List String) (sel : String → FormEntry) (ts : String) :
    Option Progress :=
  let data := buildAdjudicationData disagreements sel
  let missing_rating := data.filter (fun kv => kv.2.rating.isNone)
  let missing_findings :=
    data.filter (fun kv => decide (pyStrip kv.2.findings = ""))
  let missing_root_cause :=
    data.filter (fun kv => decide (kv.2.root_cause = rootCauseUnset))
  if missing_rating ≠ [] then none
  else if missing_findings ≠ [] then none
  else if missing_root_cause ≠ [] then none
  else some (save_adjudication progress query_key
    (data.map (fun kv => (kv.1, toFieldDict kv.2))) ts)

/-- A per-metric adjudication data map is valid for a disagreement key
set when every key has an entry with a non-empty rating from the valid
options of that metric, non-empty findings, and a root cause from the
fixed enumeration that is not the unset sentinel. -/
def validAdjData (disagKeys : List String)
    (d : List (String × FieldDict)) : Prop :=
  ∀ mk ∈ disagKeys, ∃ e, lookupKey d mk = some e ∧
    (∃ rv, lookupKey e "rating" = some rv ∧ rv ≠ "" ∧
      rv ∈ optionsForKey mk) ∧
    (∃ fv, lookupKey e "findings" = some fv ∧ fv ≠ "") ∧
    (∃ cv, lookupKey e "root_cause" = some cv ∧ cv ∈ ROOT_CAUSE_OPTIONS ∧
      cv ≠ rootCauseUnset)

/-- The claimed invariant of one stored record. -/
def validCompletedRecord (disagKeys : List String) (r : AdjRecord) : Prop :=
  r.completed = true → validAdjData disagKeys r.entries

/-- The claimed invariant of the whole progress store, relative to the
disagreement key sets of the query records. -/
def progressInvariant (disagOf : String → List String) (p : Progress) : Prop :=
  ∀ qk r, lookupKey p qk = some r → validCompletedRecord (disagOf qk) r

theorem lookupKey_nil {α : Type} (k : String) :
    lookupKey ([] : List (String × α)) k = none := rfl

theorem mem_compare_ratings (e1 e2 : Dict) (k : String) :
    k ∈ compare_ratings e1 e2 ↔
      strEndsWith k "_findings" = false ∧
      ∃ v, (k, v) ∈ e1 ∧ v ≠ (lookupKey e2 k).getD "" := by
  induction e1 with
  | nil => simp [compare_ratings]
  | cons kv rest ih =>
      obtain ⟨k', v'⟩ := kv
      by_cases hf : strEndsWith k' "_findings"
      · simp only [compare_ratings, if_pos hf, ih]
        constructor
        · rintro ⟨h1, v, hv, hne⟩
          exact ⟨h1, v, by simp [hv], hne⟩
        · rintro ⟨h1, v, hv, hne⟩
          rcases List.mem_cons.mp hv with heq | hmem
          · exfalso
            have : k = k' := (Prod.mk.injEq _ _ _ _ ▸ heq).1
            rw [this] at h1
            rw [hf] at h1
            exact Bool.true_eq_false.mp h1
          · exact ⟨h1, v, hmem, hne⟩
      · by_cases hne : v' ≠ (lookupKey e2 k').getD ""
        · simp only [compare_ratings, if_neg hf, if_pos hne]
          constructor
          · intro hmem
            rcases List.mem_cons.mp hmem with heq | hmem'
            · subst heq
              exact ⟨Bool.not_eq_true _ ▸ hf, v', by simp, hne⟩
            · obtain ⟨h1, v, hv, hvne⟩ := ih.mp hmem'
              exact ⟨h1, v, by simp [hv], hvne⟩
          · rintro ⟨h1, v, hv, hvne⟩
            rcases List.mem_cons.mp hv with heq | hmem'
            · obtain ⟨hk, _⟩ := Prod.mk.injEq _ _ _ _ ▸ heq
              subst hk
              exact List.mem_cons_self _ _
            · exact List.mem_cons_of_mem _ (ih.mpr ⟨h1, v, hmem', hvne⟩)
        · push_neg at hne
          simp only [compare_ratings, if_neg hf, if_neg (not_not_intro hne)]
          rw [ih]
          constructor
          · rintro ⟨h1, v, hv, hvne⟩
            exact ⟨h1, v, by simp [hv], hvne⟩
          · rintro ⟨h1, v, hv, hvne⟩
            rcases List.mem_cons.mp hv with heq | hmem'
            · exfalso
              obtain ⟨hk, hv2⟩ := Prod.mk.injEq _ _ _ _ ▸ heq
              subst hk; subst hv2
              exact hvne hne
            · exact ⟨h1, v, hmem', hvne⟩

theorem compare_extract_A (e1 e2 : CsvRow) :
    compare_ratings (extract_evaluator_ratings e1 METRIC_COLS_A)
        (extract_evaluator_ratings e2 METRIC_COLS_A) =
      (METRIC_COLS_A.filter (fun mc =>
        clean_str (rowGet e1 mc.2.1) != clean_str (rowGet e2 mc.2.1))).map
        (fun mc => mc.1) := by
  simp +decide [compare_ratings, extract_evaluator_ratings, METRIC_COLS_A, lookupKey,
    List.filter_cons]
  split_ifs <;> rfl

theorem compare_extract_B (e1 e2 : CsvRow) :
    compare_ratings (extract_evaluator_ratings e1 METRIC_COLS_B)
        (extract_evaluator_ratings e2 METRIC_COLS_B) =
      (METRIC_COLS_B.filter (fun mc =>
        clean_str (rowGet e1 mc.2.1) != clean_str (rowGet e2 mc.2.1))).map
        (fun mc => mc.1) := by
  simp +decide [compare_ratings, extract_evaluator_ratings, METRIC_COLS_B, lookupKey,
    List.filter_cons]
  split_ifs <;> rfl

theorem mem_ite_singleton {c : Prop} [Decidable c] (a b : String) :
    (a ∈ if c then [b] else ([] : List String)) ↔ c ∧ a = b := by
  by_cases h : c <;> simp [h]

/-- C1: a metric key appears in the disagreement list of a query record
iff the two evaluators' whitespace-trimmed rating strings for that
(metric, model) pair differ as case-sensitive strings; findings text is
never compared (the characterisation mentions only rating columns); the
synthetic `preference` key appears iff the trimmed preference strings
differ. -/
theorem C1_disagreements_iff_rating_mismatch (e1_row e2_row : CsvRow)
    (m : String) (hm : m ∈ metricNames) :
    disagreementSpec e1_row e2_row m := by
  unfold disagreementSpec
  fin_cases hm <;>
  · simp only [queryDisagreements, compare_extract_A, compare_extract_B]
    simp +decide [mem_ite_singleton, METRIC_COLS_A, METRIC_COLS_B, ratingCol,
      List.mem_filter, List.find?, or_and_right, exists_or, and_assoc]

/-- Witness for C1 at concrete rows: evaluator 1 rates source accuracy
"Yes", evaluator 2's row is empty, so `source_a` disagrees. -/
theorem C1_witness :
    "source" ∈ metricNames ∧
      disagreementSpec [("Source Accuracy", some "Yes")] [] "source" :=
  ⟨by decide,
   C1_disagreements_iff_rating_mismatch
     [("Source Accuracy", some "Yes")] [] "source" (by decide)⟩

theorem mem_partitionRecords_fst (l : List QueryRecord) (r : QueryRecord) :
    r ∈ (partitionRecords l).1 ↔ r ∈ l ∧ r.disagreements ≠ [] := by
  induction l with
  | nil => simp [partitionRecords]
  | cons x rest ih =>
      by_cases hx : x.disagreements ≠ []
      · simp only [partitionRecords, if_pos hx, List.mem_cons, ih]
        constructor
        · rintro (rfl | ⟨hm, hd⟩)
          · exact ⟨Or.inl rfl, hx⟩
          · exact ⟨Or.inr hm, hd⟩
        · rintro ⟨rfl | hm, hd⟩
          · exact Or.inl rfl
          · exact Or.inr ⟨hm, hd⟩
      · simp only [partitionRecords, if_neg hx, ih, List.mem_cons]
        constructor
        · rintro ⟨hm, hd⟩
          exact ⟨Or.inr hm, hd⟩
        · rintro ⟨rfl | hm, hd⟩
          · exact absurd hd hx
          · exact ⟨hm, hd⟩

theorem mem_partitionRecords_snd (l : List QueryRecord) (r : QueryRecord) :
    r ∈ (partitionRecords l).2 ↔
      ∃ r', r' ∈ l ∧ r'.disagreements = [] ∧ r = attachCanonical r' := by
  induction l with
  | nil => simp [partitionRecords]
  | cons x rest ih =>
      by_cases hx : x.disagreements ≠ []
      · simp only [partitionRecords, if_pos hx, ih, List.mem_cons]
        constructor
        · rintro ⟨r', hm, hd, he⟩
          exact ⟨r', Or.inr hm, hd, he⟩
        · rintro ⟨r', rfl | hm, hd, he⟩
          · exact absurd hd hx
          · exact ⟨r', hm, hd, he⟩
      · push_neg at hx
        simp only [partitionRecords, if_neg (not_not_intro hx), List.mem_cons, ih]
        constructor
        · rintro (rfl | ⟨r', hm, hd, he⟩)
          · exact ⟨x, Or.inl rfl, hx, rfl⟩
          · exact ⟨r', Or.inr hm, hd, he⟩
        · rintro ⟨r', rfl | hm, hd, he⟩
          · exact Or.inl he
          · exact Or.inr ⟨r', hm, hd, he⟩

theorem attachCanonical_disagreements (r : QueryRecord) :
    (attachCanonical r).disagreements = r.disagreements := rfl

theorem attachCanonical_canonical (r : QueryRecord) :
    (attachCanonical r).canonical = some (canonicalOf r.evaluator_1) := rfl

/-- C7: the partition is exhaustive and exclusive: every processed record
goes to the disagreed list iff its disagreement set is non-empty and to
the agreed list (with the ratings of evaluator 1 attached as canonical)
iff it is empty, and no record is in both lists. -/
theorem C7_partition_exclusive_exhaustive (gs : List GroupData) :
    (∀ r ∈ (prepare_adjudication_data gs).1, r.disagreements ≠ []) ∧
    (∀ r ∈ (prepare_adjudication_data gs).2,
      r.disagreements = [] ∧ r.canonical = some (canonicalOf r.evaluator_1)) ∧
    (∀ r ∈ processedRecords gs,
      (r.disagreements = [] → attachCanonical r ∈ (prepare_adjudication_data gs).2) ∧
      (r.disagreements ≠ [] → r ∈ (prepare_adjudication_data gs).1)) ∧
    (∀ r : QueryRecord,
      ¬(r ∈ (prepare_adjudication_data gs).1 ∧ r ∈ (prepare_adjudication_data gs).2)) := by
  refine ⟨?_, ?_, ?_, ?_⟩
  · intro r hr
    rw [prepare_adjudication_data, List.mem_mergeSort, mem_partitionRecords_fst] at hr
    exact hr.2
  · intro r hr
    rw [prepare_adjudication_data, List.mem_mergeSort, mem_partitionRecords_snd] at hr
    obtain ⟨r', _, hd, rfl⟩ := hr
    exact ⟨by rw [attachCanonical_disagreements, hd], attachCanonical_canonical r'⟩
  · intro r hr
    constructor
    · intro hd
      rw [prepare_adjudication_data, List.mem_mergeSort, mem_partitionRecords_snd]
      exact ⟨r, hr, hd, rfl⟩
    · intro hd
      rw [prepare_adjudication_data, List.mem_mergeSort, mem_partitionRecords_fst]
      exact ⟨hr, hd⟩
  · rintro r ⟨h1, h2⟩
    rw [prepare_adjudication_data, List.mem_mergeSort, mem_partitionRecords_fst] at h1
    rw [prepare_adjudication_data, List.mem_mergeSort, mem_partitionRecords_snd] at h2
    obtain ⟨r', _, hd, rfl⟩ := h2
    rw [attachCanonical_disagreements] at h1
    exact h1.2 hd

/-- Witness for C7: one group, one common query on which the two rows
disagree on Source Accuracy; the built record lands in the disagreed
list. -/
theorem C7_witness :
    buildQueryRecord "A" "Evaluator 1" "Evaluator 2" "p1" 1
        [("Source Accuracy", some "Yes")] [] ∈
      (prepare_adjudication_data
        [{ group := "A", e1_name := "Evaluator 1", e2_name := "Evaluator 2",
           e1_df := [(("p1", 1), [("Source Accuracy", some "Yes")])],
           e2_df := [(("p1", 1), [])] }]).1 :=
  ((C7_partition_exclusive_exhaustive
      [{ group := "A", e1_name := "Evaluator 1", e2_name := "Evaluator 2",
         e1_df := [(("p1", 1), [("Source Accuracy", some "Yes")])],
         e2_df := [(("p1", 1), [])] }]).2.2.1
    (buildQueryRecord "A" "Evaluator 1" "Evaluator 2" "p1" 1
      [("Source Accuracy", some "Yes")] [])
    (by decide)).2 (by decide)

theorem mem_processGroup (g : GroupData) (r : QueryRecord)
    (hr : r ∈ processGroup g) :
    ∃ k, k ∈ g.e1_df.map Prod.fst ∧ k ∈ g.e2_df.map Prod.fst ∧
      r.patient_id = k.1 ∧ r.query_num = k.2 := by
  rw [processGroup] at hr
  obtain ⟨k, hk, rfl⟩ := List.mem_map.mp hr
  rw [List.mem_filter] at hk
  exact ⟨k, hk.1, of_decide_eq_true hk.2, rfl, rfl⟩

/-- C10: a (patient, query) pair present in exactly one of the two paired
evaluators' tables is skipped by the intersection: no record with that
patient id and query number is built, and none appears in either output
list. -/
theorem C10_one_sided_queries_skipped (g : GroupData) (k : String × Int)
    (h : (k ∈ g.e1_df.map Prod.fst ∧ k ∉ g.e2_df.map Prod.fst) ∨
         (k ∉ g.e1_df.map Prod.fst ∧ k ∈ g.e2_df.map Prod.fst)) :
    (∀ r ∈ processGroup g, (r.patient_id, r.query_num) ≠ k) ∧
    (∀ r ∈ (prepare_adjudication_data [g]).1, (r.patient_id, r.query_num) ≠ k) ∧
    (∀ r ∈ (prepare_adjudication_data [g]).2, (r.patient_id, r.query_num) ≠ k) := by
  have hmain : ∀ r ∈ processGroup g, (r.patient_id, r.query_num) ≠ k := by
    intro r hr hrk
    obtain ⟨k', h1, h2, hp, hq⟩ := mem_processGroup g r hr
    have hk' : k' = k := by
      rw [← hrk, hp, hq]
    rw [hk'] at h1 h2
    rcases h with ⟨_, hn2⟩ | ⟨hn1, _⟩
    · exact hn2 h2
    · exact hn1 h1
  refine ⟨hmain, ?_, ?_⟩
  · intro r hr
    rw [prepare_adjudication_data, List.mem_mergeSort, mem_partitionRecords_fst] at hr
    have : r ∈ processGroup g := by
      have := hr.1
      simpa [processedRecords] using this
    exact hmain r this
  · intro r hr
    rw [prepare_adjudication_data, List.mem_mergeSort, mem_partitionRecords_snd] at hr
    obtain ⟨r', hm, _, rfl⟩ := hr
    have : r' ∈ processGroup g := by simpa [processedRecords] using hm
    exact hmain r' this

/-- Witness for C10: a query only evaluator 1 of the pair evaluated. -/
theorem C10_witness :
    (∀ r ∈ processGroup
        { group := "A", e1_name := "Evaluator 1", e2_name := "Evaluator 2",
          e1_df := [(("p1", 1), [])], e2_df := [] },
      (r.patient_id, r.query_num) ≠ ("p1", 1)) ∧
    (∀ r ∈ (prepare_adjudication_data
        [{ group := "A", e1_name := "Evaluator 1", e2_name := "Evaluator 2",
           e1_df := [(("p1", 1), [])], e2_df := [] }]).1,
      (r.patient_id, r.query_num) ≠ ("p1", 1)) ∧
    (∀ r ∈ (prepare_adjudication_data
        [{ group := "A", e1_name := "Evaluator 1", e2_name := "Evaluator 2",
           e1_df := [(("p1", 1), [])], e2_df := [] }]).2,
      (r.patient_id, r.query_num) ≠ ("p1", 1)) :=
  C10_one_sided_queries_skipped
    { group := "A", e1_name := "Evaluator 1", e2_name := "Evaluator 2",
      e1_df := [(("p1", 1), [])], e2_df := [] }
    ("p1", 1) (by decide)

theorem pyStrip_empty : pyStrip "" = "" := by decide

/-- C4 counterexample: the claim says the extractor fails fast on a
missing metric column and never substitutes the empty string; on a row
from an export with no Source Accuracy column at all, the extractor
instead returns the empty string as the source rating. -/
theorem C4_counterexample :
    lookupKey ([] : CsvRow) "Source Accuracy" = none ∧
    lookupKey (extract_evaluator_ratings ([] : CsvRow) METRIC_COLS_A)
      "source" = some "" := by decide

/-- C4 amended: if an expected metric rating column is absent from the
export, the extractor does not abort; it silently substitutes the empty
string as that metric's rating on every row. -/
theorem C4_missing_column_yields_empty_rating (row : CsvRow)
    (cols : List (String × String × String))
    (hcols : cols = METRIC_COLS_A ∨ cols = METRIC_COLS_B)
    (mc : String × String × String) (hmc : mc ∈ cols)
    (habs : lookupKey row mc.2.1 = none) :
    lookupKey (extract_evaluator_ratings row cols) mc.1 = some "" := by
  rcases hcols with rfl | rfl <;>
  · fin_cases hmc <;>
    · simp only [METRIC_COLS_A, METRIC_COLS_B] at habs ⊢
      simp +decide [extract_evaluator_ratings, lookupKey, rowGet, habs,
        clean_str, pyStrip_empty, METRIC_COLS_A, METRIC_COLS_B]

/-- Witness for the amended C4 at a concrete empty row. -/
theorem C4_witness :
    ("source", "Source Accuracy", "Source Accuracy Findings") ∈ METRIC_COLS_A ∧
    lookupKey ([] : CsvRow) "Source Accuracy" = none ∧
    lookupKey (extract_evaluator_ratings ([] : CsvRow) METRIC_COLS_A)
      "source" = some "" :=
  ⟨by decide, by decide,
   C4_missing_column_yields_empty_rating [] METRIC_COLS_A (Or.inl rfl)
     ("source", "Source Accuracy", "Source Accuracy Findings")
     (by decide) (by decide)⟩

theorem lookupKey_setKey {κ α : Type} [DecidableEq κ]
    (m : List (κ × α)) (k : κ) (v : α) (k' : κ) :
    lookupKey (setKey m k v) k' = if k = k' then some v else lookupKey m k' := by
  induction m with
  | nil =>
      by_cases h : k = k' <;> simp [setKey, lookupKey, h]
  | cons kv rest ih =>
      obtain ⟨k0, v0⟩ := kv
      by_cases h0 : k0 = k
      · subst h0
        by_cases h : k0 = k' <;> simp [setKey, lookupKey, h]
      · by_cases h : k0 = k'
        · subst h
          have hkk : k ≠ k0 := fun he => h0 he.symm
          simp [setKey, lookupKey, h0, if_neg hkk]
        · simp [setKey, lookupKey, h0, h, ih]

theorem rebuild_preserves_completed (subs : List Submission)
    (progress : Progress) (k : String) (r : AdjRecord)
    (hk : lookupKey progress k = some r) (hc : r.completed = true) :
    lookupKey (rebuild_progress_from_sheets progress subs).1 k = some r := by
  induction subs generalizing progress with
  | nil => simpa [rebuild_progress_from_sheets]
  | cons sub rest ih =>
      by_cases hskip : sub.query_key = "" ∨ sub.adjudication_data = []
      · rw [rebuild_progress_from_sheets, if_pos hskip]
        exact ih progress hk
      · by_cases hw : localNotCompleted progress sub.query_key
        · have hne : sub.query_key ≠ k := by
            intro he
            rw [localNotCompleted, he, hk] at hw
            simp [hc] at hw
          rw [rebuild_progress_from_sheets, if_neg hskip, if_pos hw]
          exact ih _ (by rw [lookupKey_setKey, if_neg hne, hk])
        · rw [rebuild_progress_from_sheets, if_neg hskip, if_neg hw]
          exact ih progress hk

theorem completed_not_written (subs : List Submission)
    (progress : Progress) (k : String) (r : AdjRecord)
    (hk : lookupKey progress k = some r) (hc : r.completed = true) :
    k ∉ writtenKeys progress subs := by
  induction subs generalizing progress with
  | nil => simp [writtenKeys]
  | cons sub rest ih =>
      by_cases hskip : sub.query_key = "" ∨ sub.adjudication_data = []
      · rw [writtenKeys, if_pos hskip]
        exact ih progress hk
      · by_cases hw : localNotCompleted progress sub.query_key
        · have hne : sub.query_key ≠ k := by
            intro he
            rw [localNotCompleted, he, hk] at hw
            simp [hc] at hw
          rw [writtenKeys, if_neg hskip, if_pos hw]
          intro hmem
          rcases List.mem_cons.mp hmem with he | hmem'
          · exact hne he.symm
          · exact ih _ (by rw [lookupKey_setKey, if_neg hne, hk]) hmem'
        · rw [writtenKeys, if_neg hskip, if_neg hw]
          exact ih progress hk

theorem writtenKeys_nodup (subs : List Submission) (progress : Progress) :
    (writtenKeys progress subs).Nodup := by
  induction subs generalizing progress with
  | nil => simp [writtenKeys]
  | cons sub rest ih =>
      by_cases hskip : sub.query_key = "" ∨ sub.adjudication_data = []
      · rw [writtenKeys, if_pos hskip]
        exact ih progress
      · by_cases hw : localNotCompleted progress sub.query_key
        · rw [writtenKeys, if_neg hskip, if_pos hw]
          refine List.nodup_cons.mpr ⟨?_, ih _⟩
          exact completed_not_written rest _ sub.query_key _
            (by rw [lookupKey_setKey, if_pos rfl]) rfl
        · rw [writtenKeys, if_neg hskip, if_neg hw]
          exact ih progress

theorem rebuild_count_eq_writtenKeys (subs : List Submission)
    (progress : Progress) :
    (rebuild_progress_from_sheets progress subs).2 =
      (writtenKeys progress subs).length := by
  induction subs generalizing progress with
  | nil => simp [rebuild_progress_from_sheets, writtenKeys]
  | cons sub rest ih =>
      by_cases hskip : sub.query_key = "" ∨ sub.adjudication_data = []
      · rw [rebuild_progress_from_sheets, writtenKeys, if_pos hskip, if_pos hskip]
        exact ih progress
      · by_cases hw : localNotCompleted progress sub.query_key
        · rw [rebuild_progress_from_sheets, writtenKeys, if_neg hskip,
            if_neg hskip, if_pos hw, if_pos hw]
          simp [ih]
        · rw [rebuild_progress_from_sheets, writtenKeys, if_neg hskip,
            if_neg hskip, if_neg hw, if_neg hw]
          exact ih progress

theorem not_written_unchanged (subs : List Submission) (progress : Progress)
    (k : String) (hk : k ∉ writtenKeys progress subs) :
    lookupKey (rebuild_progress_from_sheets progress subs).1 k =
      lookupKey progress k := by
  induction subs generalizing progress with
  | nil => simp [rebuild_progress_from_sheets]
  | cons sub rest ih =>
      by_cases hskip : sub.query_key = "" ∨ sub.adjudication_data = []
      · rw [writtenKeys, if_pos hskip] at hk
        rw [rebuild_progress_from_sheets, if_pos hskip]
        exact ih progress hk
      · by_cases hw : localNotCompleted progress sub.query_key
        · rw [writtenKeys, if_neg hskip, if_pos hw] at hk
          have hne : sub.query_key ≠ k := fun he => hk (he ▸ List.mem_cons_self _ _)
          rw [rebuild_progress_from_sheets, if_neg hskip, if_pos hw]
          rw [ih _ (fun hm => hk (List.mem_cons_of_mem _ hm))]
          rw [lookupKey_setKey, if_neg hne]
        · rw [writtenKeys, if_neg hskip, if_neg hw] at hk
          rw [rebuild_progress_from_sheets, if_neg hskip, if_neg hw]
          exact ih progress hk

theorem written_changed (subs : List Submission) (progress : Progress)
    (k : String) (hk : k ∈ writtenKeys progress subs) :
    lookupKey (rebuild_progress_from_sheets progress subs).1 k ≠
      lookupKey progress k := by
  induction subs generalizing progress with
  | nil => simp [writtenKeys] at hk
  | cons sub rest ih =>
      by_cases hskip : sub.query_key = "" ∨ sub.adjudication_data = []
      · rw [writtenKeys, if_pos hskip] at hk
        rw [rebuild_progress_from_sheets, if_pos hskip]
        exact ih progress hk
      · by_cases hw : localNotCompleted progress sub.query_key
        · rw [writtenKeys, if_neg hskip, if_pos hw] at hk
          rw [rebuild_progress_from_sheets, if_neg hskip, if_pos hw]
          show lookupKey (rebuild_progress_from_sheets
            (setKey progress sub.query_key
              { completed := true, timestamp := sub.timestamp,
                entries := sub.adjudication_data }) rest).1 k ≠
            lookupKey progress k
          rcases List.mem_cons.mp hk with he | hmem
          · subst he
            have hfin : lookupKey (rebuild_progress_from_sheets
                (setKey progress sub.query_key
                  { completed := true, timestamp := sub.timestamp,
                    entries := sub.adjudication_data }) rest).1 sub.query_key =
                some { completed := true, timestamp := sub.timestamp,
                       entries := sub.adjudication_data } :=
              rebuild_preserves_completed rest _ sub.query_key _
                (by rw [lookupKey_setKey, if_pos rfl]) rfl
            rw [hfin]
            rw [localNotCompleted] at hw
            intro heq
            cases hloc : lookupKey progress sub.query_key with
            | none => rw [hloc] at heq; exact Option.noConfusion heq
            | some r0 =>
                rw [hloc] at hw heq
                simp only [Bool.not_eq_true'] at hw
                have hr0 : r0 = { completed := true, timestamp := sub.timestamp,
                                  entries := sub.adjudication_data } :=
                  Option.some_injective _ heq.symm
                rw [hr0] at hw
                exact Bool.true_eq_false.mp hw
          · have hne : sub.query_key ≠ k := by
              intro he
              rw [← he] at hmem
              exact completed_not_written rest _ sub.query_key _
                (by rw [lookupKey_setKey, if_pos rfl]) rfl hmem
            have hih := ih _ hmem
            rw [lookupKey_setKey, if_neg hne] at hih
            exact hih
        · rw [writtenKeys, if_neg hskip, if_neg hw] at hk
          rw [rebuild_progress_from_sheets, if_neg hskip, if_neg hw]
          exact ih progress hk

/-- C2: bulk recovery writes a remote record only where the local map has
no entry or a non-completed one: every completed local record is returned
byte-for-byte unchanged, and the returned count is the length of a
duplicate-free list of exactly the keys whose stored value changed. -/
theorem C2_bulk_recover_local_wins (progress : Progress)
    (subs : List Submission) :
    (∀ k r, lookupKey progress k = some r → r.completed = true →
      lookupKey (rebuild_progress_from_sheets progress subs).1 k = some r) ∧
    (∃ W : List String, W.Nodup ∧
      (rebuild_progress_from_sheets progress subs).2 = W.length ∧
      ∀ k, k ∈ W ↔
        lookupKey (rebuild_progress_from_sheets progress subs).1 k ≠
        lookupKey progress k) := by
  refine ⟨fun k r hk hc => rebuild_preserves_completed subs progress k r hk hc,
    writtenKeys progress subs, writtenKeys_nodup subs progress,
    rebuild_count_eq_writtenKeys subs progress, fun k => ⟨written_changed subs progress k, ?_⟩⟩
  intro hch
  by_contra hnw
  exact hch (not_written_unchanged subs progress k hnw)

/-- Witness for C2: a completed local record with rating X survives a
completed remote record with rating Y for the same key. -/
theorem C2_witness :
    lookupKey
      (rebuild_progress_from_sheets
        [("q1", { completed := true, timestamp := "t0",
                  entries := [("source_a", [("rating", "X")])] })]
        [{ query_key := "q1", timestamp := "t1",
           adjudication_data := [("source_a", [("rating", "Y")])] }]).1
      "q1" =
      some { completed := true, timestamp := "t0",
             entries := [("source_a", [("rating", "X")])] } :=
  (C2_bulk_recover_local_wins
      [("q1", { completed := true, timestamp := "t0",
                entries := [("source_a", [("rating", "X")])] })]
      [{ query_key := "q1", timestamp := "t1",
         adjudication_data := [("source_a", [("rating", "Y")])] }]).1
    "q1"
    { completed := true, timestamp := "t0",
      entries := [("source_a", [("rating", "X")])] }
    (by decide) rfl

theorem applyOverride_step (st : MergedVals) (adj : AdjRecord)
    (mk : String) (hmk : mk ∈ allDisagreementKeys) (m : String)
    (hm : m ∈ metricNames) : overrideStepSpec st adj mk m := by
  unfold overrideStepSpec
  by_cases he : entryOf adj mk = []
  · simp only [applyOverride, he, if_pos rfl]
    simp [he]
  · fin_cases hmk <;> fin_cases hm <;>
    · simp +decide [entryOf] at he
      simp +decide [applyOverride, he, lookupKey_setKey, dropRight2,
        strEndsWith, entryOf]

theorem applyOverride_fold (L : List String) (adj : AdjRecord)
    (hL : ∀ k ∈ L, k ∈ allDisagreementKeys) (st : MergedVals) (m : String)
    (hm : m ∈ metricNames) : overrideFoldSpec L adj st m := by
  unfold overrideFoldSpec
  induction L generalizing st with
  | nil => simp
  | cons mk rest ih =>
      obtain ⟨s1, s2, s3, s4, s5, s6⟩ :=
        applyOverride_step st adj mk (hL mk (List.mem_cons_self _ _)) m hm
      obtain ⟨i1, i2, i3, i4, i5, i6⟩ :=
        ih (fun k hk => hL k (List.mem_cons_of_mem _ hk)) (applyOverride st adj mk)
      simp only [List.foldl_cons]
      refine ⟨?_, ?_, ?_, ?_, ?_, ?_⟩
      · rw [i1, s1]
        by_cases hke : mk = m ++ "_a"
        · subst hke
          by_cases he2 : entryOf adj (m ++ "_a") = []
          · simp [he2]
          · cases hlr : lookupKey (entryOf adj (m ++ "_a")) "rating" <;>
              by_cases hmem : (m ++ "_a") ∈ rest <;>
                simp [he2, hmem, hlr]
        · simp [List.mem_cons, hke, Ne.symm hke]
      · rw [i2, s2]
        by_cases hke : mk = m ++ "_a"
        · subst hke
          by_cases he2 : entryOf adj (m ++ "_a") = []
          · simp [he2]
          · cases hlr : lookupKey (entryOf adj (m ++ "_a")) "findings" <;>
              by_cases hmem : (m ++ "_a") ∈ rest <;>
                simp [he2, hmem, hlr]
        · simp [List.mem_cons, hke, Ne.symm hke]
      · rw [i3, s3]
        by_cases hke : mk = m ++ "_b"
        · subst hke
          by_cases he2 : entryOf adj (m ++ "_b") = []
          · simp [he2]
          · cases hlr : lookupKey (entryOf adj (m ++ "_b")) "rating" <;>
              by_cases hmem : (m ++ "_b") ∈ rest <;>
                simp [he2, hmem, hlr]
        · simp [List.mem_cons, hke, Ne.symm hke]
      · rw [i4, s4]
        by_cases hke : mk = m ++ "_b"
        · subst hke
          by_cases he2 : entryOf adj (m ++ "_b") = []
          · simp [he2]
          · cases hlr : lookupKey (entryOf adj (m ++ "_b")) "findings" <;>
              by_cases hmem : (m ++ "_b") ∈ rest <;>
                simp [he2, hmem, hlr]
        · simp [List.mem_cons, hke, Ne.symm hke]
      · rw [i5, s5]
        by_cases hke : mk = "preference"
        · subst hke
          by_cases he2 : entryOf adj "preference" = []
          · simp [he2]
          · cases hlr : lookupKey (entryOf adj "preference") "rating" <;>
              by_cases hmem : "preference" ∈ rest <;>
                simp [he2, hmem, hlr]
        · simp [List.mem_cons, hke, Ne.symm hke]
      · rw [i6, s6]
        by_cases hke : mk = "preference"
        · subst hke
          by_cases he2 : entryOf adj "preference" = []
          · simp [he2]
          · cases hlr : lookupKey (entryOf adj "preference") "findings" <;>
              by_cases hmem : "preference" ∈ rest <;>
                simp [he2, hmem, hlr]
        · simp [List.mem_cons, hke, Ne.symm hke]

theorem build_row_lookups (q : QueryRecord) (ma mb : Dict)
    (p pr s : String) (m : String) (hm : m ∈ metricNames) :
    (lookupKey (build_row q ma mb p pr s)
        ("Model A - " ++ ratingCol METRIC_COL_MAP m) =
      some ((lookupKey ma m).getD "")) ∧
    (lookupKey (build_row q ma mb p pr s)
        ("Model A - " ++ findingsCol METRIC_COL_MAP m) =
      some ((lookupKey ma (m ++ "_findings")).getD "")) ∧
    (lookupKey (build_row q ma mb p pr s)
        ("Model B - " ++ ratingCol METRIC_COL_MAP m) =
      some ((lookupKey mb m).getD "")) ∧
    (lookupKey (build_row q ma mb p pr s)
        ("Model B - " ++ findingsCol METRIC_COL_MAP m) =
      some ((lookupKey mb (m ++ "_findings")).getD "")) ∧
    (lookupKey (build_row q ma mb p pr s) "Model Preference" = some p) ∧
    (lookupKey (build_row q ma mb p pr s) "Preference Reasons" = some pr) ∧
    (lookupKey (build_row q ma mb p pr s) "Adjudication Status" = some s) := by
  fin_cases hm <;>
    simp +decide [build_row, modelMetricCells, METRIC_COL_MAP, lookupKey,
      ratingCol, findingsCol, List.find?]

theorem mem_mergeDisagreed_rows (dis : List QueryRecord) (progress : Progress)
    (q : QueryRecord) (adj : AdjRecord) (hq : q ∈ dis)
    (hl : lookupKey progress q.query_key = some adj)
    (hc : adj.completed = true) :
    mergedRowOf q adj ∈ (mergeDisagreed dis progress).1 := by
  induction dis with
  | nil => simp at hq
  | cons q0 rest ih =>
      rcases List.mem_cons.mp hq with rfl | hmem
      · simp [mergeDisagreed, hl, hc]
      · rw [mergeDisagreed]
        cases h0 : lookupKey progress q0.query_key with
        | none => exact ih hmem
        | some adj0 =>
            by_cases hc0 : adj0.completed
            · simp only [if_pos hc0]
              exact List.mem_cons_of_mem _ (ih hmem)
            · simp only [if_neg hc0]
              exact ih hmem

theorem mergeDisagreed_rows_shape (dis : List QueryRecord)
    (progress : Progress) (r : Dict) (hr : r ∈ (mergeDisagreed dis progress).1) :
    ∃ q adj, q ∈ dis ∧ lookupKey progress q.query_key = some adj ∧
      adj.completed = true ∧ r = mergedRowOf q adj := by
  induction dis with
  | nil => simp [mergeDisagreed] at hr
  | cons q0 rest ih =>
      rw [mergeDisagreed] at hr
      cases h0 : lookupKey progress q0.query_key with
      | none =>
          simp only [h0] at hr
          obtain ⟨q, adj, hq, hl, hc, he⟩ := ih hr
          exact ⟨q, adj, List.mem_cons_of_mem _ hq, hl, hc, he⟩
      | some adj0 =>
          simp only [h0] at hr
          by_cases hc0 : adj0.completed
          · rw [if_pos hc0] at hr
            rcases List.mem_cons.mp hr with rfl | hr'
            · exact ⟨q0, adj0, List.mem_cons_self _ _, h0, hc0, rfl⟩
            · obtain ⟨q, adj, hq, hl, hc, he⟩ := ih hr'
              exact ⟨q, adj, List.mem_cons_of_mem _ hq, hl, hc, he⟩
          · rw [if_neg hc0] at hr
            obtain ⟨q, adj, hq, hl, hc, he⟩ := ih hr
            exact ⟨q, adj, List.mem_cons_of_mem _ hq, hl, hc, he⟩

theorem mem_mergeDisagreed_missing (dis : List QueryRecord)
    (progress : Progress) (k : String) :
    k ∈ (mergeDisagreed dis progress).2 ↔
      ∃ q, q ∈ dis ∧ q.query_key = k ∧ isCompletedIn progress k = false := by
  induction dis with
  | nil => simp [mergeDisagreed]
  | cons q0 rest ih =>
      rw [mergeDisagreed]
      cases h0 : lookupKey progress q0.query_key with
      | none =>
          simp only [h0]
          rw [List.mem_cons, ih]
          constructor
          · rintro (rfl | ⟨q, hq, hk, hnc⟩)
            · exact ⟨q0, List.mem_cons_self _ _, rfl, by rw [isCompletedIn, h0]⟩
            · exact ⟨q, List.mem_cons_of_mem _ hq, hk, hnc⟩
          · rintro ⟨q, hq, hk, hnc⟩
            rcases List.mem_cons.mp hq with rfl | hmem
            · exact Or.inl hk.symm
            · exact Or.inr ⟨q, hmem, hk, hnc⟩
      | some adj0 =>
          simp only [h0]
          by_cases hc0 : adj0.completed
          · rw [if_pos hc0]
            rw [ih]
            constructor
            · rintro ⟨q, hq, hk, hnc⟩
              exact ⟨q, List.mem_cons_of_mem _ hq, hk, hnc⟩
            · rintro ⟨q, hq, hk, hnc⟩
              rcases List.mem_cons.mp hq with rfl | hmem
              · subst hk
                rw [isCompletedIn, h0] at hnc
                simp [hc0] at hnc
              · exact ⟨q, hmem, hk, hnc⟩
          · rw [if_neg hc0]
            rw [List.mem_cons, ih]
            constructor
            · rintro (rfl | ⟨q, hq, hk, hnc⟩)
              · exact ⟨q0, List.mem_cons_self _ _, rfl,
                  by rw [isCompletedIn, h0]; simpa using hc0⟩
              · exact ⟨q, List.mem_cons_of_mem _ hq, hk, hnc⟩
            · rintro ⟨q, hq, hk, hnc⟩
              rcases List.mem_cons.mp hq with rfl | hmem
              · exact Or.inl hk.symm
              · exact Or.inr ⟨q, hmem, hk, hnc⟩

/-- C5: a disagreed query whose adjudication record is absent or not
completed is reported by key in the missing list, and every row of the
merged output comes either from an agreed query or from a disagreed query
with a completed adjudication record — never from a defaulted
incomplete one. -/
theorem C5_missing_adjudication_excluded (agreed dis : List QueryRecord)
    (progress : Progress) (q : QueryRecord) (hq : q ∈ dis)
    (hnc : isCompletedIn progress q.query_key = false) :
    q.query_key ∈ (merge agreed dis progress).2 ∧
    (∀ r ∈ (merge agreed dis progress).1,
      (∃ qa, qa ∈ agreed ∧ r = agreedRowOf qa) ∨
      (∃ qd adj, qd ∈ dis ∧ lookupKey progress qd.query_key = some adj ∧
        adj.completed = true ∧ r = mergedRowOf qd adj)) := by
  constructor
  · show q.query_key ∈ (mergeDisagreed dis progress).2
    exact (mem_mergeDisagreed_missing dis progress q.query_key).mpr
      ⟨q, hq, rfl, hnc⟩
  · intro r hr
    have hr' : r ∈ agreed.map agreedRowOf ++ (mergeDisagreed dis progress).1 := hr
    rcases List.mem_append.mp hr' with hra | hrd
    · obtain ⟨qa, hqa, rfl⟩ := List.mem_map.mp hra
      exact Or.inl ⟨qa, hqa, rfl⟩
    · obtain ⟨qd, adj, hqd, hl, hc, he⟩ :=
        mergeDisagreed_rows_shape dis progress r hrd
      exact Or.inr ⟨qd, adj, hqd, hl, hc, he⟩

/-- Witness for C5: one disagreed query, empty progress snapshot. -/
theorem C5_witness :
    (buildQueryRecord "A" "Evaluator 1" "Evaluator 2" "p1" 1
        [("Source Accuracy", some "Yes")] []).query_key ∈
      (merge []
        [buildQueryRecord "A" "Evaluator 1" "Evaluator 2" "p1" 1
          [("Source Accuracy", some "Yes")] []] []).2 ∧
    (∀ r ∈ (merge []
        [buildQueryRecord "A" "Evaluator 1" "Evaluator 2" "p1" 1
          [("Source Accuracy", some "Yes")] []] []).1,
      (∃ qa, qa ∈ ([] : List QueryRecord) ∧ r = agreedRowOf qa) ∨
      (∃ qd adj, qd ∈ [buildQueryRecord "A" "Evaluator 1" "Evaluator 2" "p1" 1
          [("Source Accuracy", some "Yes")] []] ∧
        lookupKey ([] : Progress) qd.query_key = some adj ∧
        adj.completed = true ∧ r = mergedRowOf qd adj)) :=
  C5_missing_adjudication_excluded [] _ []
    (buildQueryRecord "A" "Evaluator 1" "Evaluator 2" "p1" 1
      [("Source Accuracy", some "Yes")] [])
    (by decide) (by decide)

theorem lookup_rating_entry_ne_nil (e : FieldDict) (f : String) (v : String)
    (h : lookupKey e f = some v) : e ≠ [] := by
  intro he
  rw [he] at h
  exact Option.noConfusion h

/-- C3: agreed rows round-trip their canonical ratings; disagreed rows
with a completed adjudication equal the ratings of evaluator 1 except for
the adjudicated overrides on the disagreed metrics. -/
theorem C3_merge_roundtrip_and_override (agreed dis : List QueryRecord)
    (progress : Progress) :
    c3AgreedSpec agreed dis progress ∧ c3DisagreedSpec agreed dis progress := by
  constructor
  · intro q hq c hc
    have hrow : agreedRowOf q =
        build_row q c.model_a c.model_b c.preference c.preference_reasons
          "agreed" := by
      rw [agreedRowOf, hc]
      rfl
    have hb := fun m hm =>
      build_row_lookups q c.model_a c.model_b c.preference
        c.preference_reasons "agreed" m hm
    refine ⟨?_, ?_, ?_, ?_⟩
    · exact List.mem_append.mpr (Or.inl (List.mem_map_of_mem _ hq))
    · rw [hrow]
      exact (hb "source" (by decide)).2.2.2.2.1
    · rw [hrow]
      exact (hb "source" (by decide)).2.2.2.2.2.1
    · intro m hm
      refine ⟨?_, ?_, ?_, ?_⟩ <;> intro v hv <;> rw [hrow]
      · rw [(hb m hm).1, hv]
        rfl
      · rw [(hb m hm).2.1, hv]
        rfl
      · rw [(hb m hm).2.2.1, hv]
        rfl
      · rw [(hb m hm).2.2.2.1, hv]
        rfl
  · intro q hq adj hl hc hsub
    have hrow : mergedRowOf q adj =
        build_row q (applyAdjudication q adj).model_a
          (applyAdjudication q adj).model_b
          (applyAdjudication q adj).preference
          (applyAdjudication q adj).preference_reasons "adjudicated" := rfl
    have hb := fun m hm =>
      build_row_lookups q (applyAdjudication q adj).model_a
        (applyAdjudication q adj).model_b
        (applyAdjudication q adj).preference
        (applyAdjudication q adj).preference_reasons "adjudicated" m hm
    have hfold := fun m hm =>
      applyOverride_fold q.disagreements adj hsub
        { model_a := q.evaluator_1.model_a, model_b := q.evaluator_1.model_b,
          preference := q.evaluator_1.preference,
          preference_reasons := q.evaluator_1.preference_reasons } m hm
    refine ⟨?_, ?_, ?_, ?_⟩
    · exact List.mem_append.mpr
        (Or.inr (mem_mergeDisagreed_rows dis progress q adj hq hl hc))
    · intro m hm
      obtain ⟨f1, f2, f3, f4, f5, f6⟩ := hfold m hm
      refine ⟨?_, ?_, ?_, ?_⟩
      · intro hmem
        constructor
        · intro rv hrv
          rw [hrow, (hb m hm).1, applyAdjudication, f1,
            if_pos ⟨hmem, lookup_rating_entry_ne_nil _ _ _ hrv⟩, hrv]
          rfl
        · intro fv hfv
          rw [hrow, (hb m hm).2.1, applyAdjudication, f2,
            if_pos ⟨hmem, lookup_rating_entry_ne_nil _ _ _ hfv⟩, hfv]
          rfl
      · intro hnmem
        constructor
        · rw [hrow, (hb m hm).1, applyAdjudication, f1,
            if_neg (fun h => hnmem h.1)]
        · rw [hrow, (hb m hm).2.1, applyAdjudication, f2,
            if_neg (fun h => hnmem h.1)]
      · intro hmem
        constructor
        · intro rv hrv
          rw [hrow, (hb m hm).2.2.1, applyAdjudication, f3,
            if_pos ⟨hmem, lookup_rating_entry_ne_nil _ _ _ hrv⟩, hrv]
          rfl
        · intro fv hfv
          rw [hrow, (hb m hm).2.2.2.1, applyAdjudication, f4,
            if_pos ⟨hmem, lookup_rating_entry_ne_nil _ _ _ hfv⟩, hfv]
          rfl
      · intro hnmem
        constructor
        · rw [hrow, (hb m hm).2.2.1, applyAdjudication, f3,
            if_neg (fun h => hnmem h.1)]
        · rw [hrow, (hb m hm).2.2.2.1, applyAdjudication, f4,
            if_neg (fun h => hnmem h.1)]
    · intro hmem rv hrv
      obtain ⟨f1, f2, f3, f4, f5, f6⟩ := hfold "source" (by decide)
      rw [hrow, (hb "source" (by decide)).2.2.2.2.1, applyAdjudication, f5,
        if_pos ⟨hmem, lookup_rating_entry_ne_nil _ _ _ hrv⟩, hrv]
      rfl
    · intro hnmem
      obtain ⟨f1, f2, f3, f4, f5, f6⟩ := hfold "source" (by decide)
      rw [hrow, (hb "source" (by decide)).2.2.2.2.1, applyAdjudication, f5,
        if_neg (fun h => hnmem h.1)]

/-- Witness for C3 at the scenario of the spec: disagreements only on
source accuracy of model A, adjudicated to "Yes" against the "No" of
evaluator 1; the merged row shows "Yes" for source and keeps the value of
evaluator 1 for the non-disagreed flow metric. -/
theorem C3_witness :
    lookupKey
      (mergedRowOf
        (buildQueryRecord "A" "Evaluator 1" "Evaluator 2" "p1" 1
          [("Source Accuracy", some "No")] [("Source Accuracy", some "Yes")])
        { completed := true, timestamp := "t1",
          entries := [("source_a", [("rating", "Yes"), ("findings", "resolved")])] })
      ("Model A - " ++ ratingCol METRIC_COL_MAP "source") = some "Yes" ∧
    lookupKey
      (mergedRowOf
        (buildQueryRecord "A" "Evaluator 1" "Evaluator 2" "p1" 1
          [("Source Accuracy", some "No")] [("Source Accuracy", some "Yes")])
        { completed := true, timestamp := "t1",
          entries := [("source_a", [("rating", "Yes"), ("findings", "resolved")])] })
      ("Model A - " ++ ratingCol METRIC_COL_MAP "flow") =
      some ((lookupKey (buildQueryRecord "A" "Evaluator 1" "Evaluator 2" "p1" 1
          [("Source Accuracy", some "No")]
          [("Source Accuracy", some "Yes")]).evaluator_1.model_a "flow").getD "") := by
  have main := (C3_merge_roundtrip_and_override []
    [buildQueryRecord "A" "Evaluator 1" "Evaluator 2" "p1" 1
      [("Source Accuracy", some "No")] [("Source Accuracy", some "Yes")]]
    [("p1_1",
      { completed := true, timestamp := "t1",
        entries := [("source_a", [("rating", "Yes"), ("findings", "resolved")])] })]).2
    (buildQueryRecord "A" "Evaluator 1" "Evaluator 2" "p1" 1
      [("Source Accuracy", some "No")] [("Source Accuracy", some "Yes")])
    (by decide)
    { completed := true, timestamp := "t1",
      entries := [("source_a", [("rating", "Yes"), ("findings", "resolved")])] }
    (by decide) rfl (by decide)
  exact ⟨((main.2.1 "source" (by decide)).1 (by decide)).1 "Yes" (by decide),
    ((main.2.1 "flow" (by decide)).2.1 (by decide)).1⟩

/-- C9 (implicit): a disagreed query whose completed adjudication record
has no entry (or an empty entry) for a disagreed metric still produces a
merged row; the rating and findings of evaluator 1 are silently retained
for that metric, and the query is not reported missing. -/
theorem C9_empty_adjudicated_metric_retained (agreed dis : List QueryRecord)
    (progress : Progress) (q : QueryRecord) (adj : AdjRecord) (m : String)
    (hq : q ∈ dis) (hl : lookupKey progress q.query_key = some adj)
    (hc : adj.completed = true)
    (hsub : ∀ k ∈ q.disagreements, k ∈ allDisagreementKeys)
    (hm : m ∈ metricNames) :
    mergedRowOf q adj ∈ (merge agreed dis progress).1 ∧
    q.query_key ∉ (merge agreed dis progress).2 ∧
    ((m ++ "_a") ∈ q.disagreements → entryOf adj (m ++ "_a") = [] →
      lookupKey (mergedRowOf q adj)
        ("Model A - " ++ ratingCol METRIC_COL_MAP m) =
        some ((lookupKey q.evaluator_1.model_a m).getD "") ∧
      lookupKey (mergedRowOf q adj)
        ("Model A - " ++ findingsCol METRIC_COL_MAP m) =
        some ((lookupKey q.evaluator_1.model_a (m ++ "_findings")).getD "")) ∧
    ((m ++ "_b") ∈ q.disagreements → entryOf adj (m ++ "_b") = [] →
      lookupKey (mergedRowOf q adj)
        ("Model B - " ++ ratingCol METRIC_COL_MAP m) =
        some ((lookupKey q.evaluator_1.model_b m).getD "") ∧
      lookupKey (mergedRowOf q adj)
        ("Model B - " ++ findingsCol METRIC_COL_MAP m) =
        some ((lookupKey q.evaluator_1.model_b (m ++ "_findings")).getD "")) ∧
    ("preference" ∈ q.disagreements → entryOf adj "preference" = [] →
      lookupKey (mergedRowOf q adj) "Model Preference" =
        some q.evaluator_1.preference) := by
  have hrow : mergedRowOf q adj =
      build_row q (applyAdjudication q adj).model_a
        (applyAdjudication q adj).model_b
        (applyAdjudication q adj).preference
        (applyAdjudication q adj).preference_reasons "adjudicated" := rfl
  have hb := fun m' hm' =>
    build_row_lookups q (applyAdjudication q adj).model_a
      (applyAdjudication q adj).model_b
      (applyAdjudication q adj).preference
      (applyAdjudication q adj).preference_reasons "adjudicated" m' hm'
  have hfold := fun m' hm' =>
    applyOverride_fold q.disagreements adj hsub
      { model_a := q.evaluator_1.model_a, model_b := q.evaluator_1.model_b,
        preference := q.evaluator_1.preference,
        preference_reasons := q.evaluator_1.preference_reasons } m' hm'
  obtain ⟨f1, f2, f3, f4, f5, f6⟩ := hfold m hm
  refine ⟨?_, ?_, ?_, ?_, ?_⟩
  · exact List.mem_append.mpr
      (Or.inr (mem_mergeDisagreed_rows dis progress q adj hq hl hc))
  · intro hmiss
    have hmiss' : q.query_key ∈ (mergeDisagreed dis progress).2 := hmiss
    obtain ⟨q', hq', hk', hnc⟩ :=
      (mem_mergeDisagreed_missing dis progress q.query_key).mp hmiss'
    rw [isCompletedIn, hl] at hnc
    simp [hc] at hnc
  · intro hmem hent
    constructor
    · rw [hrow, (hb m hm).1, applyAdjudication, f1,
        if_neg (fun h => h.2 hent)]
    · rw [hrow, (hb m hm).2.1, applyAdjudication, f2,
        if_neg (fun h => h.2 hent)]
  · intro hmem hent
    constructor
    · rw [hrow, (hb m hm).2.2.1, applyAdjudication, f3,
        if_neg (fun h => h.2 hent)]
    · rw [hrow, (hb m hm).2.2.2.1, applyAdjudication, f4,
        if_neg (fun h => h.2 hent)]
  · intro hmem hent
    rw [hrow, (hb m hm).2.2.2.2.1, applyAdjudication, f5,
      if_neg (fun h => h.2 hent)]

/-- Witness for C9: the single disagreed metric source_a has no entry in
the completed record; the row keeps the "No" of evaluator 1 and the query
is not reported missing. -/
theorem C9_witness :
    mergedRowOf
      (buildQueryRecord "A" "Evaluator 1" "Evaluator 2" "p1" 1
        [("Source Accuracy", some "No")] [("Source Accuracy", some "Yes")])
      { completed := true, timestamp := "t1", entries := [] } ∈
      (merge []
        [buildQueryRecord "A" "Evaluator 1" "Evaluator 2" "p1" 1
          [("Source Accuracy", some "No")] [("Source Accuracy", some "Yes")]]
        [("p1_1", { completed := true, timestamp := "t1", entries := [] })]).1 ∧
    ("source_a" ∈ (buildQueryRecord "A" "Evaluator 1" "Evaluator 2" "p1" 1
        [("Source Accuracy", some "No")]
        [("Source Accuracy", some "Yes")]).disagreements) ∧
    lookupKey
      (mergedRowOf
        (buildQueryRecord "A" "Evaluator 1" "Evaluator 2" "p1" 1
          [("Source Accuracy", some "No")] [("Source Accuracy", some "Yes")])
        { completed := true, timestamp := "t1", entries := [] })
      ("Model A - " ++ ratingCol METRIC_COL_MAP "source") =
      some ((lookupKey (buildQueryRecord "A" "Evaluator 1" "Evaluator 2" "p1" 1
        [("Source Accuracy", some "No")]
        [("Source Accuracy", some "Yes")]).evaluator_1.model_a "source").getD "") := by
  have main := C9_empty_adjudicated_metric_retained []
    [buildQueryRecord "A" "Evaluator 1" "Evaluator 2" "p1" 1
      [("Source Accuracy", some "No")] [("Source Accuracy", some "Yes")]]
    [("p1_1", { completed := true, timestamp := "t1", entries := [] })]
    (buildQueryRecord "A" "Evaluator 1" "Evaluator 2" "p1" 1
      [("Source Accuracy", some "No")] [("Source Accuracy", some "Yes")])
    { completed := true, timestamp := "t1", entries := [] }
    "source" (by decide) (by decide) rfl (by decide) (by decide)
  exact ⟨main.1, by decide,
    (main.2.2.1 (by decide) (by decide)).1⟩

/-- C8: the remote-mirror push never propagates an exception: every
outcome yields an ok Boolean, false on any failure, and the local store
write happens first and independently of the outcome; the pull likewise
returns count 0 and an untouched store on any failure instead of
raising. -/
theorem C8_sync_never_raises (progress : Progress) (query_key ts : String)
    (adjudication_data : List (String × FieldDict)) (outcome : PostOutcome)
    (gout : GetOutcome) :
    (∃ b : Bool, submit_adjudication_to_sheets outcome = .ok b) ∧
    (∀ status, outcome = .response status → status ≠ 200 →
      submit_adjudication_to_sheets outcome = .ok false) ∧
    (∀ msg, outcome = .exn msg →
      submit_adjudication_to_sheets outcome = .ok false) ∧
    (submit_adjudication_to_sheets outcome = .ok true ↔
      outcome = .response 200) ∧
    ((screen2_submit_flow progress query_key adjudication_data ts outcome).1 =
      save_adjudication progress query_key adjudication_data ts) ∧
    (∀ msg, gout = .exn msg →
      recover_progress_from_sheets progress gout = (progress, 0)) ∧
    (∀ status body, gout = .response status body → status ≠ 200 →
      recover_progress_from_sheets progress gout = (progress, 0)) ∧
    (∀ msg, gout = .response 200 (.error msg) →
      recover_progress_from_sheets progress gout = (progress, 0)) ∧
    (∀ subs, gout = .response 200 (.ok subs) →
      recover_progress_from_sheets progress gout =
        (if 0 < subs.length then rebuild_progress_from_sheets progress subs
         else (progress, 0))) := by
  refine ⟨?_, ?_, ?_, ?_, rfl, ?_, ?_, ?_, ?_⟩
  · cases outcome with
    | response status =>
        by_cases h : status = 200
        · subst h
          exact ⟨true, rfl⟩
        · exact ⟨false, by
            simp [submit_adjudication_to_sheets, submitSheetsBody, h]⟩
    | exn msg => exact ⟨false, rfl⟩
  · rintro status rfl h
    simp [submit_adjudication_to_sheets, submitSheetsBody, h]
  · rintro msg rfl
    rfl
  · cases outcome with
    | response status =>
        by_cases h : status = 200
        · subst h
          simp [submit_adjudication_to_sheets, submitSheetsBody]
        · simp [submit_adjudication_to_sheets, submitSheetsBody, h]
    | exn msg =>
        simp [submit_adjudication_to_sheets, submitSheetsBody]
  · rintro msg rfl
    rfl
  · rintro status body rfl h
    simp [recover_progress_from_sheets, recoverSheetsBody, h]
  · rintro msg rfl
    rfl
  · rintro subs rfl
    by_cases h : 0 < subs.length
    · simp [recover_progress_from_sheets, recoverSheetsBody, h]
    · simp [recover_progress_from_sheets, recoverSheetsBody, h]

/-- Witness for C8 at a failed POST (status 500) and a failed GET. -/
theorem C8_witness :
    submit_adjudication_to_sheets (.response 500) = .ok false ∧
    recover_progress_from_sheets [] (.exn "timeout") = ([], 0) ∧
    (screen2_submit_flow [] "q1" [("source_a", [("rating", "Yes")])] "t"
        (.response 500)).1 =
      save_adjudication [] "q1" [("source_a", [("rating", "Yes")])] "t" := by
  have main := C8_sync_never_raises [] "q1" "t"
    [("source_a", [("rating", "Yes")])] (.response 500) (.exn "timeout")
  exact ⟨main.2.1 500 rfl (by decide), main.2.2.2.2.2.1 "timeout" rfl,
    main.2.2.2.2.1⟩

theorem lookupKey_mem {κ α : Type} [DecidableEq κ] (m : List (κ × α))
    (k : κ) (v : α) (h : lookupKey m k = some v) : (k, v) ∈ m := by
  induction m with
  | nil => exact Option.noConfusion h
  | cons kv rest ih =>
      obtain ⟨k0, v0⟩ := kv
      rw [lookupKey] at h
      by_cases hk : k0 = k
      · rw [if_pos hk] at h
        subst hk
        obtain rfl := Option.some_injective _ h
        exact List.mem_cons_self _ _
      · rw [if_neg hk] at h
        exact List.mem_cons_of_mem _ (ih h)

theorem lookup_map_pair {α : Type} (L : List String) (g : String → α)
    (k : String) (hk : k ∈ L) :
    lookupKey (L.map (fun x => (x, g x))) k = some (g k) := by
  induction L with
  | nil => simp at hk
  | cons x rest ih =>
      rw [List.map_cons, lookupKey]
      by_cases hx : x = k
      · subst hx
        rw [if_pos rfl]
      · rw [if_neg hx]
        exact ih (by rcases List.mem_cons.mp hk with rfl | h
                     · exact absurd rfl hx
                     · exact h)

theorem empty_not_in_optionsForKey (mk : String) :
    "" ∉ optionsForKey mk := by
  rw [optionsForKey]
  by_cases h : mk = "preference"
  · rw [if_pos h]
    decide
  · rw [if_neg h]
    cases hlk : lookupKey METRIC_OPTIONS (get_metric_base mk) with
    | none => decide
    | some opts =>
        have hmem := lookupKey_mem _ _ _ hlk
        rw [METRIC_OPTIONS] at hmem
        simp only [List.mem_cons, List.not_mem_nil, or_false] at hmem
        simp only [Option.getD_some]
        rcases hmem with h1 | h1 | h1 | h1 | h1 | h1 <;>
          · obtain ⟨-, rfl⟩ := Prod.mk.injEq _ _ _ _ ▸ h1
            decide

/-- C6 amended: the completed-record invariant is established by the
screen-2 submission path (whose widgets offer only the valid options and
whose validation rejects a missing rating, empty findings, or unset root
cause before persisting); bulk recovery performs no validation of its
own and preserves the invariant only when every recovered submission
itself satisfies it. -/
theorem C6_invariant_upsert_and_conditional_recovery :
    (∀ (progress : Progress) (disagOf : String → List String) (qk : String)
        (disagreements : List String) (sel : String → FormEntry) (ts : String)
        (p' : Progress),
      (∀ mk ∈ disagreements, ∀ r, (sel mk).rating = some r →
        r ∈ optionsForKey mk) →
      (∀ mk ∈ disagreements, (sel mk).root_cause ∈ ROOT_CAUSE_OPTIONS) →
      disagOf qk = disagreements →
      progressInvariant disagOf progress →
      screen2_submit progress qk disagreements sel ts = some p' →
      progressInvariant disagOf p') ∧
    (∀ (progress : Progress) (disagOf : String → List String)
        (subs : List Submission),
      progressInvariant disagOf progress →
      (∀ sub ∈ subs, validAdjData (disagOf sub.query_key)
        sub.adjudication_data) →
      progressInvariant disagOf
        (rebuild_progress_from_sheets progress subs).1) := by
  constructor
  · intro progress disagOf qk disagreements sel ts p' hopt hrc hdk hinv hsub
    rw [screen2_submit] at hsub
    by_cases h1 : (buildAdjudicationData disagreements sel).filter
        (fun kv => kv.2.rating.isNone) ≠ []
    · rw [if_pos h1] at hsub
      exact Option.noConfusion hsub
    by_cases h2 : (buildAdjudicationData disagreements sel).filter
        (fun kv => decide (pyStrip kv.2.findings = "")) ≠ []
    · rw [if_neg h1, if_pos h2] at hsub
      exact Option.noConfusion hsub
    by_cases h3 : (buildAdjudicationData disagreements sel).filter
        (fun kv => decide (kv.2.root_cause = rootCauseUnset)) ≠ []
    · rw [if_neg h1, if_neg h2, if_pos h3] at hsub
      exact Option.noConfusion hsub
    rw [if_neg h1, if_neg h2, if_neg h3] at hsub
    obtain rfl := Option.some_injective _ hsub.symm
    push_neg at h1 h2 h3
    have hval : ∀ mk ∈ disagreements,
        (sel mk).rating ≠ none ∧
        pyStrip (sel mk).findings ≠ "" ∧
        (sel mk).root_cause ≠ rootCauseUnset := by
      intro mk hmk
      have hd : (mk, sel mk) ∈ buildAdjudicationData disagreements sel :=
        List.mem_map_of_mem _ hmk
      refine ⟨?_, ?_, ?_⟩
      · have := List.filter_eq_nil_iff.mp h1 _ hd
        simpa using this
      · have := List.filter_eq_nil_iff.mp h2 _ hd
        simpa using this
      · have := List.filter_eq_nil_iff.mp h3 _ hd
        simpa using this
    intro qk' r hr
    rw [save_adjudication, lookupKey_setKey] at hr
    by_cases hq : qk = qk'
    · rw [if_pos hq] at hr
      obtain rfl := Option.some_injective _ hr.symm
      intro _
      rw [← hq, hdk]
      intro mk hmk
      obtain ⟨hnr, hnf, hnc⟩ := hval mk hmk
      obtain ⟨rv, hrv⟩ := Option.ne_none_iff_exists'.mp hnr
      refine ⟨toFieldDict (sel mk), ?_, ?_, ?_, ?_⟩
      · show lookupKey ((buildAdjudicationData disagreements sel).map
          (fun kv => (kv.1, toFieldDict kv.2))) mk = _
        rw [buildAdjudicationData, List.map_map]
        exact lookup_map_pair disagreements _ mk hmk
      · refine ⟨rv, ?_, ?_, hopt mk hmk rv hrv⟩
        · show lookupKey (toFieldDict (sel mk)) "rating" = some rv
          rw [toFieldDict, lookupKey, if_pos rfl, hrv]
          rfl
        · intro he
          rw [he] at hrv
          have := hopt mk hmk "" hrv
          exact empty_not_in_optionsForKey mk this
      · refine ⟨(sel mk).findings, ?_, ?_⟩
        · rfl
        · intro he
          rw [he, pyStrip_empty] at hnf
          exact hnf rfl
      · exact ⟨(sel mk).root_cause, rfl, hrc mk hmk, hnc⟩
    · rw [if_neg hq] at hr
      exact hinv qk' r hr
  · intro progress disagOf subs hinv hsubs
    induction subs generalizing progress with
    | nil => exact hinv
    | cons sub rest ih =>
        by_cases hskip : sub.query_key = "" ∨ sub.adjudication_data = []
        · rw [rebuild_progress_from_sheets, if_pos hskip]
          exact ih progress hinv (fun s hs => hsubs s (List.mem_cons_of_mem _ hs))
        · by_cases hw : localNotCompleted progress sub.query_key
          · rw [rebuild_progress_from_sheets, if_neg hskip, if_pos hw]
            show progressInvariant disagOf
              (rebuild_progress_from_sheets
                (setKey progress sub.query_key
                  { completed := true, timestamp := sub.timestamp,
                    entries := sub.adjudication_data }) rest).1
            refine ih _ ?_ (fun s hs => hsubs s (List.mem_cons_of_mem _ hs))
            intro qk' r hr
            rw [lookupKey_setKey] at hr
            by_cases hq : sub.query_key = qk'
            · rw [if_pos hq] at hr
              obtain rfl := Option.some_injective _ hr.symm
              intro _
              rw [← hq]
              exact hsubs sub (List.mem_cons_self _ _)
            · rw [if_neg hq] at hr
              exact hinv qk' r hr
          · rw [rebuild_progress_from_sheets, if_neg hskip, if_neg hw]
            exact ih progress hinv
              (fun s hs => hsubs s (List.mem_cons_of_mem _ hs))

/-- C6 counterexample: bulk recovery performs no validation, so a remote
submission with an empty rating for the disagreed metric produces a
stored completed record that violates the claimed invariant, although the
store satisfied it before. -/
theorem C6_counterexample :
    progressInvariant (fun _ => ["source_a"]) [] ∧
    ¬ progressInvariant (fun _ => ["source_a"])
      ((rebuild_progress_from_sheets []
        [{ query_key := "q1", timestamp := "t",
           adjudication_data := [("source_a", [("rating", "")])] }]).1) := by
  constructor
  · intro qk r h
    exact Option.noConfusion h
  · intro h
    have hrec := h "q1"
      { completed := true, timestamp := "t",
        entries := [("source_a", [("rating", "")])] } (by decide)
    obtain ⟨e, he, ⟨rv, hrv, hne, _⟩, _, _⟩ := hrec rfl "source_a" (by decide)
    simp [lookupKey] at he
    subst he
    simp [lookupKey] at hrv
    exact hne hrv.symm

/-- Witness for the amended C6: a validated submission establishes the
invariant, and bulk recovery of a valid remote submission preserves it. -/
theorem C6_witness :
    progressInvariant (fun _ => ["source_a"])
      (save_adjudication [] "q1"
        [("source_a", toFieldDict
          (⟨some "No source issues (Pass)", "ok",
            "Both evaluators saw the same issue but disagreed on severity or significance",
            ""⟩ : FormEntry))] "t") ∧
    progressInvariant (fun _ => ["source_a"])
      ((rebuild_progress_from_sheets []
        [{ query_key := "q2", timestamp := "t",
           adjudication_data := [("source_a",
             [("rating", "No source issues (Pass)"), ("findings", "ok"),
              ("root_cause", "The metric rubric was unclear or ambiguous, leading to different interpretations"),
              ("root_cause_detail", "")])] }]).1) := by
  constructor
  · refine (C6_invariant_upsert_and_conditional_recovery).1 []
      (fun _ => ["source_a"]) "q1" ["source_a"]
      (fun _ => (⟨some "No source issues (Pass)", "ok",
        "Both evaluators saw the same issue but disagreed on severity or significance",
        ""⟩ : FormEntry)) "t" _ ?_ ?_ rfl ?_ ?_
    · intro mk hmk r hr
      have hm : mk = "source_a" := by simpa using hmk
      subst hm
      obtain rfl : ("No source issues (Pass)" : String) = r :=
        Option.some_injective _ hr
      decide
    · intro mk hmk
      change ("Both evaluators saw the same issue but disagreed on severity or significance" : String) ∈ ROOT_CAUSE_OPTIONS
      decide
    · intro qk r h
      exact Option.noConfusion h
    · decide
  · refine (C6_invariant_upsert_and_conditional_recovery).2 []
      (fun _ => ["source_a"]) _ ?_ ?_
    · intro qk r h
      exact Option.noConfusion h
    · intro sub hsub mk hmk
      have hs : sub = (⟨"q2", "t",
        [("source_a",
          [("rating", "No source issues (Pass)"), ("findings", "ok"),
           ("root_cause", "The metric rubric was unclear or ambiguous, leading to different interpretations"),
           ("root_cause_detail", "")])]⟩ : Submission) := by simpa using hsub
      subst hs
      have hm : mk = "source_a" := by simpa using hmk
      subst hm
      refine ⟨[("rating", "No source issues (Pass)"), ("findings", "ok"),
        ("root_cause", "The metric rubric was unclear or ambiguous, leading to different interpretations"),
        ("root_cause_detail", "")], by decide,
        ⟨"No source issues (Pass)", by decide, by decide, by decide⟩,
        ⟨"ok", by decide, by decide⟩,
        ⟨"The metric rubric was unclear or ambiguous, leading to different interpretations",
          by decide, by decide, by decide⟩⟩
